import Mathlib

/-!
# Verification of the odds-normalization and wager-settlement engine

Shallow embedding of the betting core of the `realmadrid-bot` repository:

* `src/api.py` — odds normalizer (`_parse_leon_markets`), market catalog
  builder (`_build_live_markets`), API-side resolver (`settle_bet_by_type`),
  API settlement loop (`settle_all_bets_advanced`), wager placement endpoint
  (`place_bet_endpoint`), referral bonus (`process_referral_bonus`).
* `src/bot.py` — bot-side resolver (`check_bet_won`) and settlement loop
  (`settle_all_bets`).
* `src/database.py` — ledger operations (`place_bet`, `update_user_balance`,
  `settle_prediction`).

Python strings are modelled as `List Char`, dictionaries of optional fields as
structures (fields read with `dict.get(k, default)` are plain fields holding
the defaulted value, fields read with `dict.get(k)` are `Option`), Python
floats as `ℚ`, Python ints as `ℤ`, and a raised exception as an explicit
error value.
-/

namespace RMBot

/-- Worker for `pyReplace`; `fuel` only forces structural recursion and is
always at least `s.length`, so the `0` case is only reached at `s = []`. -/
def pyReplaceAux (fuel : ℕ) (s p r : List Char) : List Char :=
  match fuel with
  | 0 => s
  | fuel + 1 =>
    if p = [] then s
    else if p.isPrefixOf s then r ++ pyReplaceAux fuel (s.drop p.length) p r
    else
      match s with
      | [] => []
      | c :: t => c :: pyReplaceAux fuel t p r

/-- Python `s.replace(old, new)`: replace every occurrence of `old` by `new`
(no-op when `old` is empty; the source never passes an empty `old`). -/
def pyReplace (s p r : List Char) : List Char :=
  pyReplaceAux s.length s p r

/-- Python `s.replace(old, new, 1)`: replace only the first occurrence. -/
def pyReplaceOnce (s p r : List Char) : List Char :=
  match s with
  | [] => []
  | c :: t =>
    if p ≠ [] ∧ p.isPrefixOf (c :: t) then r ++ (c :: t).drop p.length
    else c :: pyReplaceOnce t p r

/-- Python `s.strip()`: remove leading and trailing whitespace. -/
def pyStrip (s : List Char) : List Char :=
  ((s.dropWhile Char.isWhitespace).reverse.dropWhile Char.isWhitespace).reverse

/-- Python `str.lower()` restricted to the alphabets appearing in the source:
ASCII `A`–`Z` and Cyrillic `А`–`Я` map down by 32 code points, `Ё` maps to
`ё`; everything else is unchanged. -/
def pyLower (c : Char) : Char :=
  if 'A' ≤ c ∧ c ≤ 'Z' then Char.ofNat (c.toNat + 32)
  else if 'А' ≤ c ∧ c ≤ 'Я' then Char.ofNat (c.toNat + 32)
  else if c = 'Ё' then 'ё'
  else c

/-- `name.lower()` on a whole string. -/
def lowerL (s : List Char) : List Char := s.map pyLower

/-- Python `needle in haystack` on strings: `needle` occurs contiguously in
`hay`. -/
def sub (needle hay : List Char) : Bool :=
  match hay with
  | [] => needle.isEmpty
  | c :: t => needle.isPrefixOf (c :: t) || sub needle t

/-- Numeric value of a list of decimal digit characters. -/
def digitsVal (l : List Char) : ℕ :=
  l.foldl (fun n c => n * 10 + (c.toNat - 48)) 0

/-- Parse an unsigned decimal literal (`"2"`, `"2.5"`, `"2."`, `".5"`),
the fragment of Python `float(s)` exercised by the repository's keys. -/
def parseUD (l : List Char) : Option ℚ :=
  match l.splitOn '.' with
  | [ip] =>
      if ip ≠ [] ∧ ip.all Char.isDigit then some (digitsVal ip) else none
  | [ip, fp] =>
      if (ip ≠ [] ∨ fp ≠ []) ∧ ip.all Char.isDigit ∧ fp.all Char.isDigit then
        some ((digitsVal ip : ℚ) + (digitsVal fp : ℚ) / (10 : ℚ) ^ fp.length)
      else none
  | _ => none

/-- Python `float(s)` on the decimal literals (optionally negative) that the
normalizer and resolvers exchange; `none` models a raised `ValueError`. -/
def parseDec (l : List Char) : Option ℚ :=
  match l with
  | '-' :: rest => (parseUD rest).map Neg.neg
  | _ => parseUD l

/-- Python `int(s)` on decimal integer literals; `none` models `ValueError`. -/
def parsePyInt (l : List Char) : Option ℤ :=
  match l with
  | '-' :: rest =>
      if rest ≠ [] ∧ rest.all Char.isDigit then some (-(digitsVal rest : ℤ)) else none
  | _ => if l ≠ [] ∧ l.all Char.isDigit then some (digitsVal l : ℤ) else none

/-- Python `int(x)` on a float: truncation toward zero. -/
def pyInt (q : ℚ) : ℤ := if 0 ≤ q then ⌊q⌋ else ⌈q⌉

/-- Python `str(n)` for an integer score value. -/
def intStr (n : ℤ) : List Char := (toString n).data

end RMBot

namespace RMBot

/-- Statistics dictionary passed to `api.settle_bet_by_type`, as built by
`api.get_match_statistics`: the keys below are always initialised by that
builder (so the `stats[...]` / `stats.get(..., 0)` reads both see them),
while `'first_goal'` is never written by it and is read with
`stats.get('first_goal')` — hence an `Option`. -/
structure ApiStats where
  home_score : ℤ
  away_score : ℤ
  total_goals : ℤ
  total_corners : ℤ
  both_scored : Bool
  outcome : List Char
  first_goal : Option (List Char)
deriving DecidableEq, Repr

/-- Result of `api.settle_bet_by_type`: Python `True` / `False` / `'push'`,
plus `err` for a propagated `ValueError` from `float(...)`. -/
inductive ApiRes | win | lose | push | err
deriving DecidableEq, Repr

/-- Evaluate `float(l)` and continue, propagating `ValueError`. -/
def withLine (l : List Char) (k : ℚ → ApiRes) : ApiRes :=
  match parseDec l with
  | none => .err
  | some q => k q

/-- `api.settle_bet_by_type(bet_type, stats)` (src/api.py:5143-5259),
branch for branch in source order.  Over/under branches implement
`if total == line and line == int(line): return 'push'` — for a rational
`line`, `line == int(line)` is `line.den = 1`. -/
def settle_bet_by_type (bt : List Char) (s : ApiStats) : ApiRes :=
  -- Основной исход
  if bt = "home".data ∨ bt = "draw".data ∨ bt = "away".data then
    (if bt = s.outcome then .win else .lose)
  -- Точный счёт
  else if "score_".data.isPrefixOf bt then
    (if pyReplace bt "score_".data [] = intStr s.home_score ++ "-".data ++ intStr s.away_score
     then .win else .lose)
  -- Тотал голов (целые линии: ровно = возврат)
  else if "total_over_".data.isPrefixOf bt then
    withLine (pyReplace bt "total_over_".data []) (fun line =>
      if (s.total_goals : ℚ) = line ∧ line.den = 1 then .push
      else if (s.total_goals : ℚ) > line then .win else .lose)
  else if "total_under_".data.isPrefixOf bt then
    withLine (pyReplace bt "total_under_".data []) (fun line =>
      if (s.total_goals : ℚ) = line ∧ line.den = 1 then .push
      else if (s.total_goals : ℚ) < line then .win else .lose)
  -- Обе забьют
  else if bt = "btts_yes".data then (if s.both_scored then .win else .lose)
  else if bt = "btts_no".data then (if s.both_scored = false then .win else .lose)
  -- Двойной шанс
  else if bt = "dc_1x".data then
    (if s.outcome = "home".data ∨ s.outcome = "draw".data then .win else .lose)
  else if bt = "dc_x2".data then
    (if s.outcome = "draw".data ∨ s.outcome = "away".data then .win else .lose)
  else if bt = "dc_12".data then
    (if s.outcome = "home".data ∨ s.outcome = "away".data then .win else .lose)
  -- Ничья — нет ставки (Draw No Bet)
  else if bt = "dnb_home".data then
    (if s.outcome = "draw".data then .push
     else if s.outcome = "home".data then .win else .lose)
  else if bt = "dnb_away".data then
    (if s.outcome = "draw".data then .push
     else if s.outcome = "away".data then .win else .lose)
  -- Угловые (целые линии: ровно = возврат)
  else if "corners_over_".data.isPrefixOf bt then
    withLine (pyReplace bt "corners_over_".data []) (fun line =>
      if (s.total_corners : ℚ) = line ∧ line.den = 1 then .push
      else if (s.total_corners : ℚ) > line then .win else .lose)
  else if "corners_under_".data.isPrefixOf bt then
    withLine (pyReplace bt "corners_under_".data []) (fun line =>
      if (s.total_corners : ℚ) = line ∧ line.den = 1 then .push
      else if (s.total_corners : ℚ) < line then .win else .lose)
  -- Индивидуальный тотал хозяев
  else if "home_total_over_".data.isPrefixOf bt then
    withLine (pyReplace bt "home_total_over_".data []) (fun line =>
      if (s.home_score : ℚ) = line ∧ line.den = 1 then .push
      else if (s.home_score : ℚ) > line then .win else .lose)
  else if "home_total_under_".data.isPrefixOf bt then
    withLine (pyReplace bt "home_total_under_".data []) (fun line =>
      if (s.home_score : ℚ) = line ∧ line.den = 1 then .push
      else if (s.home_score : ℚ) < line then .win else .lose)
  -- Индивидуальный тотал гостей
  else if "away_total_over_".data.isPrefixOf bt then
    withLine (pyReplace bt "away_total_over_".data []) (fun line =>
      if (s.away_score : ℚ) = line ∧ line.den = 1 then .push
      else if (s.away_score : ℚ) > line then .win else .lose)
  else if "away_total_under_".data.isPrefixOf bt then
    withLine (pyReplace bt "away_total_under_".data []) (fun line =>
      if (s.away_score : ℚ) = line ∧ line.den = 1 then .push
      else if (s.away_score : ℚ) < line then .win else .lose)
  -- Фора (handicap)
  else if "handicap_home_".data.isPrefixOf bt then
    withLine (pyReplace bt "handicap_home_".data []) (fun line =>
      if (s.home_score : ℚ) - (s.away_score : ℚ) + line = 0 then .push
      else if (s.home_score : ℚ) - (s.away_score : ℚ) + line > 0 then .win else .lose)
  else if "handicap_away_".data.isPrefixOf bt then
    withLine (pyReplace bt "handicap_away_".data []) (fun line =>
      if (s.away_score : ℚ) - (s.home_score : ℚ) + line = 0 then .push
      else if (s.away_score : ℚ) - (s.home_score : ℚ) + line > 0 then .win else .lose)
  -- Первый гол
  else if bt = "first_goal_home".data then
    (if s.first_goal = some "home".data then .win else .lose)
  else if bt = "first_goal_away".data then
    (if s.first_goal = some "away".data then .win else .lose)
  else if bt = "first_goal_none".data then
    (if s.total_goals = 0 then .win else .lose)
  else .lose

end RMBot

namespace RMBot

/-- Statistics dictionary passed to `bot.check_bet_won`, as built by the bot's
settlement commands (src/bot.py:753-770, 1014-1031): every key below is always
present there; `first_goal` holds `get_first_goal_team`'s result, with `""`
meaning "could not be determined". -/
structure BotStats where
  outcome : List Char
  home_score : ℤ
  away_score : ℤ
  total_goals : ℤ
  both_scored : Bool
  total_corners : ℤ
  home_corners : ℤ
  away_corners : ℤ
  total_yellow : ℤ
  home_yellow : ℤ
  away_yellow : ℤ
  has_penalty : Bool
  first_goal : List Char
deriving DecidableEq, Repr

/-- Result of `bot.check_bet_won`: Python `True` / `False` / `None`, plus
`err` for a propagated `ValueError` from `float(...)`. -/
inductive BotRes | win | lose | undet | err
deriving DecidableEq, Repr

/-- Evaluate `float(l)` and continue, propagating `ValueError`. -/
def withLineB (l : List Char) (k : ℚ → BotRes) : BotRes :=
  match parseDec l with
  | none => .err
  | some q => k q

/-- Boolean result as a `BotRes`. -/
def botOf (b : Bool) : BotRes := if b then .win else .lose

/-- Tail of `bot.check_bet_won` from the `handicap_home_` branch on; split
out because Python falls through to these checks when `bet_type` starts with
`first_goal_` but is none of the three known first-goal keys. -/
def checkTail (bt : List Char) (s : BotStats) : BotRes :=
  -- Фора (гандикап)
  if "handicap_home_".data.isPrefixOf bt then
    withLineB (pyReplace bt "handicap_home_".data [])
      (fun line => botOf ((s.home_score : ℚ) - (s.away_score : ℚ) + line > 0))
  else if "handicap_away_".data.isPrefixOf bt then
    withLineB (pyReplace bt "handicap_away_".data [])
      (fun line => botOf ((s.away_score : ℚ) - (s.home_score : ℚ) + line > 0))
  -- Азиатская фора
  else if "asian_home_".data.isPrefixOf bt then
    withLineB (pyReplace bt "asian_home_".data [])
      (fun line => botOf ((s.home_score : ℚ) - (s.away_score : ℚ) + line > 0))
  else if "asian_away_".data.isPrefixOf bt then
    withLineB (pyReplace bt "asian_away_".data [])
      (fun line => botOf ((s.away_score : ℚ) - (s.home_score : ℚ) + line > 0))
  -- ИТ угловых хозяев/гостей
  else if "corners_home_over_".data.isPrefixOf bt then
    withLineB (pyReplace bt "corners_home_over_".data [])
      (fun line => botOf ((s.home_corners : ℚ) > line))
  else if "corners_home_under_".data.isPrefixOf bt then
    withLineB (pyReplace bt "corners_home_under_".data [])
      (fun line => botOf ((s.home_corners : ℚ) < line))
  else if "corners_away_over_".data.isPrefixOf bt then
    withLineB (pyReplace bt "corners_away_over_".data [])
      (fun line => botOf ((s.away_corners : ℚ) > line))
  else if "corners_away_under_".data.isPrefixOf bt then
    withLineB (pyReplace bt "corners_away_under_".data [])
      (fun line => botOf ((s.away_corners : ℚ) < line))
  -- ИТ карточек хозяев/гостей
  else if "cards_home_over_".data.isPrefixOf bt then
    withLineB (pyReplace bt "cards_home_over_".data [])
      (fun line => botOf ((s.home_yellow : ℚ) > line))
  else if "cards_home_under_".data.isPrefixOf bt then
    withLineB (pyReplace bt "cards_home_under_".data [])
      (fun line => botOf ((s.home_yellow : ℚ) < line))
  else if "cards_away_over_".data.isPrefixOf bt then
    withLineB (pyReplace bt "cards_away_over_".data [])
      (fun line => botOf ((s.away_yellow : ℚ) > line))
  else if "cards_away_under_".data.isPrefixOf bt then
    withLineB (pyReplace bt "cards_away_under_".data [])
      (fun line => botOf ((s.away_yellow : ℚ) < line))
  else .lose

/-- `bot.check_bet_won(bet_type, stats)` (src/bot.py:370-517), branch for
branch in source order.  All comparisons are strict: this resolver has no
push/refund outcome at all. -/
def check_bet_won (bt0 : List Char) (s : BotStats) : BotRes :=
  -- Убираем префикс LIVE_ если есть
  let bt := if "LIVE_".data.isPrefixOf bt0 then pyReplace bt0 "LIVE_".data [] else bt0
  -- Исход матча
  if bt = "home".data ∨ bt = "draw".data ∨ bt = "away".data then
    botOf (bt = s.outcome)
  -- Точный счёт
  else if "score_".data.isPrefixOf bt then
    botOf (pyReplace bt "score_".data [] =
      intStr s.home_score ++ "-".data ++ intStr s.away_score)
  -- Тоталы голов
  else if "total_over_".data.isPrefixOf bt then
    withLineB (pyReplace bt "total_over_".data [])
      (fun line => botOf ((s.total_goals : ℚ) > line))
  else if "total_under_".data.isPrefixOf bt then
    withLineB (pyReplace bt "total_under_".data [])
      (fun line => botOf ((s.total_goals : ℚ) < line))
  -- Обе забьют
  else if bt = "btts_yes".data then botOf s.both_scored
  else if bt = "btts_no".data then botOf (!s.both_scored)
  -- Чёт/Нечёт тотал голов
  else if bt = "total_even".data then botOf (s.total_goals % 2 = 0)
  else if bt = "total_odd".data then botOf (s.total_goals % 2 = 1)
  -- Угловые
  else if "corners_over_".data.isPrefixOf bt then
    withLineB (pyReplace bt "corners_over_".data [])
      (fun line => botOf ((s.total_corners : ℚ) > line))
  else if "corners_under_".data.isPrefixOf bt then
    withLineB (pyReplace bt "corners_under_".data [])
      (fun line => botOf ((s.total_corners : ℚ) < line))
  -- Карточки
  else if "cards_over_".data.isPrefixOf bt then
    withLineB (pyReplace bt "cards_over_".data [])
      (fun line => botOf ((s.total_yellow : ℚ) > line))
  else if "cards_under_".data.isPrefixOf bt then
    withLineB (pyReplace bt "cards_under_".data [])
      (fun line => botOf ((s.total_yellow : ℚ) < line))
  -- Индивидуальный тотал хозяев
  else if "home_over_".data.isPrefixOf bt then
    withLineB (pyReplace bt "home_over_".data [])
      (fun line => botOf ((s.home_score : ℚ) > line))
  else if "home_under_".data.isPrefixOf bt then
    withLineB (pyReplace bt "home_under_".data [])
      (fun line => botOf ((s.home_score : ℚ) < line))
  -- Индивидуальный тотал гостей
  else if "away_over_".data.isPrefixOf bt then
    withLineB (pyReplace bt "away_over_".data [])
      (fun line => botOf ((s.away_score : ℚ) > line))
  else if "away_under_".data.isPrefixOf bt then
    withLineB (pyReplace bt "away_under_".data [])
      (fun line => botOf ((s.away_score : ℚ) < line))
  -- Пенальти
  else if bt = "penalty_yes".data then botOf s.has_penalty
  else if bt = "penalty_no".data then botOf (!s.has_penalty)
  -- Двойной шанс
  else if bt = "dc_1x".data then
    botOf (s.outcome = "home".data ∨ s.outcome = "draw".data)
  else if bt = "dc_x2".data then
    botOf (s.outcome = "draw".data ∨ s.outcome = "away".data)
  else if bt = "dc_12".data then
    botOf (s.outcome = "home".data ∨ s.outcome = "away".data)
  -- Результат без ничьей (Draw No Bet)
  else if bt = "dnb_home".data then botOf (s.outcome = "home".data)
  else if bt = "dnb_away".data then botOf (s.outcome = "away".data)
  -- Кто забьёт первый гол
  else if "first_goal_".data.isPrefixOf bt then
    (if s.first_goal = [] then .undet  -- Не удалось определить — оставляем pending
     else if bt = "first_goal_home".data then botOf (s.first_goal = "home".data)
     else if bt = "first_goal_away".data then botOf (s.first_goal = "away".data)
     else if bt = "first_goal_none".data then botOf (s.first_goal = "none".data)
     else checkTail bt s)
  else checkTail bt s

end RMBot

namespace RMBot

/-- Python `str(n)` for a non-negative row id. -/
def natStr (n : ℕ) : List Char := (toString n).data

/-- A row of the `users` table; only the columns the modelled code touches. -/
structure User where
  user_id : ℕ
  balance : ℤ
  wager_remaining : ℤ
  referred_by : Option ℕ
  bets_total : ℤ
  bets_won : ℤ
  bets_lost : ℤ
  bets_profit : ℤ
  predictions_correct : ℤ
  predictions_incorrect : ℤ
  predictions_won : ℤ
  predictions_lost : ℤ
  predictions_profit : ℤ
deriving DecidableEq, Repr

/-- A row of the `bets` table (display-only columns `home_team`, `away_team`,
`match_date` and `counted_for_wager` are omitted — nothing modelled reads
them).  `status` defaults to `'pending'` in the schema. -/
structure Bet where
  bet_id : ℕ
  user_id : ℕ
  match_id : List Char
  bet_type : List Char
  amount : ℤ
  odds : ℚ
  potential_win : ℤ
  status : List Char
  payout : ℤ
deriving DecidableEq, Repr

/-- A row of the `predictions` table. -/
structure Pred where
  prediction_id : ℕ
  user_id : ℕ
  match_id : List Char
  prediction : List Char
  status : List Char
  points_change : ℤ
deriving DecidableEq, Repr

/-- A row of the append-only `transactions` table (the ledger); the free-text
`description` column is omitted. -/
structure Tx where
  user_id : ℕ
  txType : List Char
  amount : ℤ
  balance_before : ℤ
  balance_after : ℤ
  reference_id : List Char
deriving DecidableEq, Repr

/-- The database state; `next_bet_id` models SQLite's autoincrement
`lastrowid` for the `bets` table. -/
structure DB where
  users : List User
  bets : List Bet
  preds : List Pred
  txs : List Tx
  next_bet_id : ℕ
deriving DecidableEq, Repr

/-- `UPDATE users SET ... WHERE user_id = ?`. -/
def updUser (uid : ℕ) (f : User → User) (db : DB) : DB :=
  { db with users := db.users.map fun u => if u.user_id = uid then f u else u }

/-- `UPDATE bets SET ... WHERE bet_id = ?`. -/
def updBet (bid : ℕ) (f : Bet → Bet) (db : DB) : DB :=
  { db with bets := db.bets.map fun b => if b.bet_id = bid then f b else b }

/-- `UPDATE predictions SET ... WHERE prediction_id = ?`. -/
def updPred (pid : ℕ) (f : Pred → Pred) (db : DB) : DB :=
  { db with preds := db.preds.map fun p => if p.prediction_id = pid then f p else p }

/-- `INSERT INTO transactions ...`. -/
def addTx (t : Tx) (db : DB) : DB := { db with txs := db.txs ++ [t] }

/-- `SELECT ... FROM users WHERE user_id = ?`. -/
def findUser (uid : ℕ) (db : DB) : Option User :=
  db.users.find? fun u => u.user_id == uid

/-- The bot's `user[0]['balance'] if user else 0` pattern. -/
def balanceOf (uid : ℕ) (db : DB) : ℤ := ((findUser uid db).map User.balance).getD 0

/-- `wager_remaining` of a user, `0` when absent. -/
def wagerOf (uid : ℕ) (db : DB) : ℤ :=
  ((findUser uid db).map User.wager_remaining).getD 0

/-- Result dictionary of `api.settle_all_bets_advanced`. -/
structure AdvResult where
  bets_settled : ℕ
  predictions_settled : ℕ
  bets_won : ℕ
  bets_lost : ℕ
  bets_pushed : ℕ
deriving DecidableEq, Repr

/-- The `WHERE match_id = ? AND status = 'pending'` selection for bets. -/
def pendingBetP (m : List Char) (b : Bet) : Bool :=
  decide (b.match_id = m ∧ b.status = "pending".data)

/-- The `WHERE match_id = ? AND status = 'pending'` selection for
predictions. -/
def pendingPredP (m : List Char) (p : Pred) : Bool :=
  decide (p.match_id = m ∧ p.status = "pending".data)

/-- The bet loop of `api.settle_all_bets_advanced` (src/api.py:5263-5301):
one iteration per fetched pending bet; `none` models a `ValueError`
escaping from `settle_bet_by_type` (malformed numeric suffix). -/
def advLoop (stats : ApiStats) : List Bet → AdvResult → DB → Option (AdvResult × DB)
  | [], r, db => some (r, db)
  | b :: rest, r, db =>
    match settle_bet_by_type b.bet_type stats with
    | .err => none
    | .push =>
        -- Возврат — ставка с целой линией, ровно на линии
        advLoop stats rest
          { r with bets_settled := r.bets_settled + 1, bets_pushed := r.bets_pushed + 1 }
          (updUser b.user_id (fun u => { u with balance := u.balance + b.amount })
            (updBet b.bet_id (fun x => { x with status := "returned".data }) db))
    | .win =>
        -- Выигрыш: winnings = int(amount * odds)
        let winnings := pyInt ((b.amount : ℚ) * b.odds)
        advLoop stats rest
          { r with bets_settled := r.bets_settled + 1, bets_won := r.bets_won + 1 }
          (updUser b.user_id (fun u => { u with balance := u.balance + winnings })
            (updBet b.bet_id (fun x => { x with status := "won".data }) db))
    | .lose =>
        -- Проигрыш: только статус
        advLoop stats rest
          { r with bets_settled := r.bets_settled + 1, bets_lost := r.bets_lost + 1 }
          (updBet b.bet_id (fun x => { x with status := "lost".data }) db)

/-- The prediction loop of `api.settle_all_bets_advanced`
(src/api.py:5303-5324): `won = prediction == stats['outcome']`, `+10`
points when correct, no balance change when incorrect. -/
def advPredLoop (stats : ApiStats) : List Pred → AdvResult → DB → AdvResult × DB
  | [], r, db => (r, db)
  | p :: rest, r, db =>
    if p.prediction = stats.outcome then
      advPredLoop stats rest
        { r with predictions_settled := r.predictions_settled + 1 }
        (updUser p.user_id
          (fun u => { u with balance := u.balance + 10,
                             predictions_correct := u.predictions_correct + 1 })
          (updPred p.prediction_id (fun x => { x with status := "correct".data }) db))
    else
      advPredLoop stats rest
        { r with predictions_settled := r.predictions_settled + 1 }
        (updUser p.user_id
          (fun u => { u with predictions_incorrect := u.predictions_incorrect + 1 })
          (updPred p.prediction_id (fun x => { x with status := "incorrect".data }) db))

/-- `api.settle_all_bets_advanced(match_id, stats)` (src/api.py:5263-5326):
settles every bet and prediction whose status is still `'pending'` for the
match; writes no transactions at all. -/
def settle_all_bets_advanced (m : List Char) (stats : ApiStats) (db : DB) :
    Option (AdvResult × DB) :=
  match advLoop stats (db.bets.filter (pendingBetP m)) ⟨0, 0, 0, 0, 0⟩ db with
  | none => none
  | some (r, db1) =>
    some (advPredLoop stats (db1.preds.filter (pendingPredP m)) r db1)

/-- Result dictionary of `bot.settle_all_bets`. -/
structure BotResult where
  bets_settled : ℕ
  bets_won : ℕ
  bets_lost : ℕ
  predictions_settled : ℕ
  predictions_correct : ℕ
deriving DecidableEq, Repr

/-- The bet loop of `bot.settle_all_bets` (src/bot.py:544-585): `None` from
`check_bet_won` leaves the bet pending (`continue`); a win credits the
payout and logs a `bet_win` transaction; a loss changes no balance but logs
a zero-amount `bet_lose` transaction. -/
def botLoop (stats : BotStats) : List Bet → BotResult → DB → Option (BotResult × DB)
  | [], r, db => some (r, db)
  | b :: rest, r, db =>
    match check_bet_won b.bet_type stats with
    | .err => none
    | .undet => botLoop stats rest r db  -- не удалось определить, оставляем pending
    | .win =>
        let winnings := pyInt ((b.amount : ℚ) * b.odds)
        let balance_before := balanceOf b.user_id db
        let balance_after := balance_before + winnings
        botLoop stats rest
          { r with bets_settled := r.bets_settled + 1, bets_won := r.bets_won + 1 }
          (addTx ⟨b.user_id, "bet_win".data, winnings, balance_before, balance_after,
                  natStr b.bet_id⟩
            (updUser b.user_id
              (fun u => { u with balance := balance_after, bets_won := u.bets_won + 1 })
              (updBet b.bet_id
                (fun x => { x with status := "won".data, payout := winnings }) db)))
    | .lose =>
        let balance := balanceOf b.user_id db
        botLoop stats rest
          { r with bets_settled := r.bets_settled + 1, bets_lost := r.bets_lost + 1 }
          (addTx ⟨b.user_id, "bet_lose".data, 0, balance, balance, natStr b.bet_id⟩
            (updUser b.user_id (fun u => { u with bets_lost := u.bets_lost + 1 })
              (updBet b.bet_id (fun x => { x with status := "lost".data }) db)))

/-- The prediction loop of `bot.settle_all_bets` (src/bot.py:587-631):
`+5` / `prediction_win` when correct, `-10` / `prediction_lose` when not,
both applied unconditionally. -/
def botPredLoop (stats : BotStats) : List Pred → BotResult → DB → BotResult × DB
  | [], r, db => (r, db)
  | p :: rest, r, db =>
    if p.prediction = stats.outcome then
      let balance_before := balanceOf p.user_id db
      let balance_after := balance_before + 5
      botPredLoop stats rest
        { r with predictions_settled := r.predictions_settled + 1,
                 predictions_correct := r.predictions_correct + 1 }
        (addTx ⟨p.user_id, "prediction_win".data, 5, balance_before, balance_after,
                natStr p.prediction_id⟩
          (updUser p.user_id
            (fun u => { u with balance := balance_after,
                               predictions_won := u.predictions_won + 1 })
            (updPred p.prediction_id
              (fun x => { x with status := "correct".data, points_change := 5 }) db)))
    else
      let balance_before := balanceOf p.user_id db
      let balance_after := balance_before - 10
      botPredLoop stats rest
        { r with predictions_settled := r.predictions_settled + 1 }
        (addTx ⟨p.user_id, "prediction_lose".data, -10, balance_before, balance_after,
                natStr p.prediction_id⟩
          (updUser p.user_id
            (fun u => { u with balance := balance_after,
                               predictions_lost := u.predictions_lost + 1 })
            (updPred p.prediction_id
              (fun x => { x with status := "incorrect".data, points_change := -10 }) db)))

/-- `bot.settle_all_bets(match_id, stats)` (src/bot.py:536-633). -/
def settle_all_bets (m : List Char) (stats : BotStats) (db : DB) :
    Option (BotResult × DB) :=
  match botLoop stats (db.bets.filter (pendingBetP m)) ⟨0, 0, 0, 0, 0⟩ db with
  | none => none
  | some (r, db1) =>
    some (botPredLoop stats (db1.preds.filter (pendingPredP m)) r db1)

/-- `database.place_bet(user_id, match_id, bet_type, amount, odds, ...)`
(src/database.py:487-533).  Fails (`None`) when the user is missing or
`balance < amount`; otherwise debits the stake, lowers the playthrough
counter by `max(0, wager - amount)`, inserts a bet (schema default status
`'pending'`) and logs one `-amount` transaction. -/
def place_bet (uid : ℕ) (match_id bet_type : List Char) (amount : ℤ) (odds : ℚ)
    (db : DB) : Option ℕ × DB :=
  match findUser uid db with
  | none => (none, db)
  | some user =>
    if user.balance < amount then (none, db)
    else
      let potential_win := pyInt ((amount : ℚ) * odds)
      let balance_before := user.balance
      let balance_after := balance_before - amount
      let wager_before := user.wager_remaining
      let wager_after := max 0 (wager_before - amount)
      let bet_id := db.next_bet_id
      let db1 := updUser uid
        (fun u => { u with balance := balance_after, wager_remaining := wager_after,
                           bets_total := u.bets_total + 1 }) db
      let newBet : Bet := ⟨bet_id, uid, match_id, bet_type, amount, odds,
        potential_win, "pending".data, 0⟩
      let db2 : DB := { db1 with bets := db1.bets ++ [newBet],
                                 next_bet_id := bet_id + 1 }
      (some bet_id,
        addTx ⟨uid, "bet".data, -amount, balance_before, balance_after, natStr bet_id⟩ db2)

/-- `database.update_user_balance(user_id, amount, ...)`
(src/database.py:347-391): refuses (returns `False`, writes nothing) when
the user is missing or the update would drive the balance negative. -/
def update_user_balance (uid : ℕ) (amount : ℤ) (txType ref : List Char)
    (affect_wager : Bool) (db : DB) : Bool × DB :=
  match findUser uid db with
  | none => (false, db)
  | some u =>
    let balance_before := u.balance
    let wager_before := u.wager_remaining
    let balance_after := balance_before + amount
    -- Проверяем, что баланс не станет отрицательным
    if balance_after < 0 then (false, db)
    else
      let wager_after :=
        if affect_wager ∧ amount > 0 then wager_before + amount else wager_before
      (true,
        addTx ⟨uid, txType, amount, balance_before, balance_after, ref⟩
          (updUser uid
            (fun x => { x with balance := balance_after, wager_remaining := wager_after })
            db))

/-- `database.settle_prediction(prediction_id, actual_result)`
(src/database.py:740-784).  Note that the Boolean returned by
`update_user_balance` is discarded: when the `-10` debit would make the
balance negative it silently does not happen, yet the prediction is still
marked `incorrect`. -/
def settle_prediction (pid : ℕ) (actual : List Char) (db : DB) : Bool × DB :=
  match db.preds.find?
      (fun p => decide (p.prediction_id = pid ∧ p.status = "pending".data)) with
  | none => (false, db)
  | some p =>
    if p.prediction = actual then
      let db1 := (update_user_balance p.user_id 5 "prediction_win".data (natStr pid)
        false db).2
      let db2 := updUser p.user_id
        (fun u => { u with predictions_won := u.predictions_won + 1,
                           predictions_profit := u.predictions_profit + 5 }) db1
      (true, updPred pid
        (fun x => { x with status := "correct".data, points_change := 5 }) db2)
    else
      let db1 := (update_user_balance p.user_id (-10) "prediction_loss".data (natStr pid)
        false db).2
      let db2 := updUser p.user_id
        (fun u => { u with predictions_lost := u.predictions_lost + 1,
                           predictions_profit := u.predictions_profit - 10 }) db1
      (true, updPred pid
        (fun x => { x with status := "incorrect".data, points_change := -10 }) db2)

/-- `database.settle_bet(bet_id, result, exact_score)`
(src/database.py:570-634): only `home/draw/away` and `score_` wagers are
understood; a win credits `potential_win` through `update_user_balance`, a
loss changes no balance and writes no transaction.  The display-only
`result`, `profit` and `settled_at` columns of the `bets` row are omitted
as in the `Bet` model (nothing modelled reads them); the `bets_profit`
statistics column is updated as in source. -/
def settle_bet (bid : ℕ) (result : List Char) (exact_score : Option (List Char))
    (db : DB) : Bool × DB :=
  match db.bets.find? (fun b => decide (b.bet_id = bid ∧ b.status = "pending".data)) with
  | none => (false, db)
  | some bet =>
    let is_won : Bool :=
      if "score_".data.isPrefixOf bet.bet_type then
        -- `exact_score and bet_score == exact_score` — falsy when absent
        match exact_score with
        | some es => decide (pyReplace bet.bet_type "score_".data [] = es)
        | none => false
      else decide (bet.bet_type = result)
    if is_won then
      let profit := bet.potential_win - bet.amount
      let db1 := (update_user_balance bet.user_id bet.potential_win "bet_win".data
        (natStr bid) false db).2
      let db2 := updUser bet.user_id
        (fun u => { u with bets_won := u.bets_won + 1,
                           bets_profit := u.bets_profit + profit }) db1
      (true, updBet bid (fun x => { x with status := "won".data }) db2)
    else
      let profit := -bet.amount
      let db2 := updUser bet.user_id
        (fun u => { u with bets_lost := u.bets_lost + 1,
                           bets_profit := u.bets_profit + profit }) db
      (true, updBet bid (fun x => { x with status := "lost".data }) db2)

end RMBot

namespace RMBot

/-- The live-odds payload the endpoint reads from the Leon cache. -/
structure LeonData where
  live_odds : List (List Char × ℚ)
  bets_suspended : Bool
deriving DecidableEq, Repr

/-- `d[k]` lookup in an odds dictionary (association list, first match). -/
def dictGet (k : List Char) (d : List (List Char × ℚ)) : Option ℚ :=
  (d.find? fun kv => kv.1 == k).map (·.2)

/-- Python `k in d and d[k]`: key present with a truthy (non-zero) price. -/
def truthyGet (k : List Char) (d : List (List Char × ℚ)) : Option ℚ :=
  match dictGet k d with
  | some v => if v = 0 then none else some v
  | none => none

/-- The `HTTPException`s `api.place_bet_endpoint` can raise, in source
order, plus `userNotFound` for a failing auth dependency. -/
inductive PlaceErr
  | userNotFound | amountNonpositive | insufficientBalance | matchNotFound
  | bettingClosed | suspended | oddsNotFound | placeFailed
deriving DecidableEq, Repr

/-- Success payload of `api.place_bet_endpoint`. -/
structure PlaceOk where
  bet_id : ℕ
  amount : ℤ
  odds : ℚ
  potential_win : ℤ
deriving DecidableEq, Repr

/-- `api.process_referral_bonus(user_id)` (src/api.py:6307-6358): after a
referred user's first bet, `+25` to the referrer and `+25` to the user,
each with its own `referral_bonus` transaction, at most once. -/
def process_referral_bonus (uid : ℕ) (db : DB) : DB :=
  match findUser uid db with
  | none => db
  | some u =>
    match u.referred_by with
    | none => db
    | some rid =>
      -- Проверяем не начисляли ли уже бонус этому пользователю
      if (db.txs.filter fun t => decide (t.user_id = uid ∧
            t.txType = "referral_bonus".data ∧ t.reference_id = natStr rid)) ≠ [] then db
      else
        let bonus : ℤ := 25
        -- Бонус рефереру
        let db1 :=
          match findUser rid db with
          | none => db
          | some ref =>
            addTx ⟨rid, "referral_bonus".data, bonus, ref.balance, ref.balance + bonus,
                   natStr uid⟩
              (updUser rid (fun x => { x with balance := x.balance + bonus }) db)
        -- Бонус новому пользователю
        match findUser uid db1 with
        | none => db1
        | some u2 =>
          addTx ⟨uid, "referral_bonus".data, bonus, u2.balance, u2.balance + bonus,
                 natStr rid⟩
            (updUser uid (fun x => { x with balance := x.balance + bonus }) db1)

/-- Leon cache selection in `api.place_bet_endpoint` (src/api.py:3539-3547):
use the opponent-targeted cache entry, and when it yields no odds fall back
to the untargeted one.  `leon1`/`leon2` are the two `_get_leon_cached`
results (external I/O, supplied as parameters). -/
def leonSelect (leon1 leon2 : Option LeonData) :
    Option LeonData × List (List Char × ℚ) :=
  let p1 : Option LeonData × List (List Char × ℚ) :=
    match leon1 with
    | some d => (some d, d.live_odds)
    | none => (none, [])
  if p1.2 = [] then
    match leon2 with
    | some d => (some d, d.live_odds)
    | none => (none, [])
  else p1

/-- Odds determination in `api.place_bet_endpoint` (src/api.py:3553-3569):
fixed `30.0` for exact-score keys, otherwise a truthy dictionary lookup,
retried with `,`/`.` swapped in the line suffix. -/
def endpointOdds (bet_type : List Char) (leon_odds : List (List Char × ℚ)) :
    Option ℚ :=
  if "score_".data.isPrefixOf bet_type then some 30
  else
    match truthyGet bet_type leon_odds with
    | some v => some v
    | none =>
      -- Попробуем найти с нормализацией (точка/запятая в линиях)
      match truthyGet (pyReplace bet_type [','] ['.']) leon_odds with
      | some v => some v
      | none =>
        match truthyGet (pyReplace bet_type ['.'] [',']) leon_odds with
        | some v => some v
        | none => none

/-- `api.place_bet_endpoint` (src/api.py:3506-3602).  External inputs are
parameters: `matches` (Google-Sheets fixture list), `bettingClosed` (the
wall-clock 5-minutes-before-kickoff cutoff; `False` also covers the
swallowed `ValueError` of an unparsable date), `leon1`/`leon2` (the odds
cache).  The team-label strings passed to `place_bet` are omitted as in the
`Bet` model.  `get_user_bets(...) == 1` is the referral trigger: the count
is capped at 20 rows in source, which does not change an equality with 1. -/
def place_bet_endpoint (uid : ℕ) (match_id bet_type : List Char) (amount : ℤ)
    (matchCount : ℕ) (bettingClosed : Bool) (leon1 leon2 : Option LeonData)
    (db : DB) : Except PlaceErr PlaceOk × DB :=
  match findUser uid db with
  | none => (.error .userNotFound, db)
  | some user =>
    -- Проверяем баланс
    if amount ≤ 0 then (.error .amountNonpositive, db)
    else if amount > user.balance then (.error .insufficientBalance, db)
    else if matchCount = 0 then (.error .matchNotFound, db)
    -- Проверяем время
    else if bettingClosed then (.error .bettingClosed, db)
    else
      let sel := leonSelect leon1 leon2
      -- Проверяем bets_suspended
      if (match sel.1 with | some d => d.bets_suspended | none => false) then
        (.error .suspended, db)
      else
        match endpointOdds bet_type sel.2 with
        | none => (.error .oddsNotFound, db)
        | some odds =>
          match place_bet uid match_id bet_type amount odds db with
          | (none, db1) => (.error .placeFailed, db1)
          | (some bid, db1) =>
            -- Проверяем реферальный бонус (первая ставка)
            let user_bets := db1.bets.filter fun b => decide (b.user_id = uid)
            let db2 := if user_bets.length = 1 then process_referral_bonus uid db1 else db1
            (.ok ⟨bid, amount, odds, pyInt ((amount : ℚ) * odds)⟩, db2)

/-- The state `database.place_bet` produces on success for the found user
row `u`: stake debited, playthrough lowered, one pending bet row appended,
one `-amt` transaction appended. -/
def placeBetResultDB (uid : ℕ) (mid bt : List Char) (amt : ℤ) (odds : ℚ)
    (u : User) (db : DB) : DB :=
  addTx ⟨uid, "bet".data, -amt, u.balance, u.balance - amt, natStr db.next_bet_id⟩
    { (updUser uid
        (fun x => { x with balance := u.balance - amt,
                           wager_remaining := max 0 (u.wager_remaining - amt),
                           bets_total := x.bets_total + 1 })
        db) with
      bets := (updUser uid
        (fun x => { x with balance := u.balance - amt,
                           wager_remaining := max 0 (u.wager_remaining - amt),
                           bets_total := x.bets_total + 1 })
        db).bets ++
        [⟨db.next_bet_id, uid, mid, bt, amt, odds, pyInt ((amt : ℚ) * odds),
          "pending".data, 0⟩],
      next_bet_id := db.next_bet_id + 1 }

end RMBot

namespace RMBot

/-- A raw bookmaker runner `{name, open, price}`; `price` is `Option` since
the field may be absent (`r.get('price')`). -/
structure RawRunner where
  name : List Char
  isOpen : Bool
  price : Option ℚ
deriving DecidableEq, Repr

/-- A raw bookmaker market `{name, open, runners}`. -/
structure RawMarket where
  name : List Char
  isOpen : Bool
  runners : List RawRunner
deriving DecidableEq, Repr

/-- The odds mapping under construction (a Python dict, insertion-ordered). -/
abbrev OddsDict := List (List Char × ℚ)

/-- Python `odds[k] = v`: replace the value of an existing key in place, or
append a new pair. -/
def dictSet (k : List Char) (v : ℚ) (d : OddsDict) : OddsDict :=
  if (d.find? fun kv => kv.1 == k).isSome then
    d.map fun kv => if kv.1 == k then (k, v) else kv
  else d ++ [(k, v)]

/-- Shared per-runner guard `if not r.get('open', True) or not r.get('price'):
continue` — Python `not price` is true for both a missing and a `0` price. -/
def runnerClosed (r : RawRunner) : Bool := !r.isOpen || r.price.getD 0 == 0

/-- Runner body of the local helper `_ou(runners, prefix)` in
`api._parse_leon_markets` (src/api.py:440-451). -/
def leonRunnerOU (px : List Char) (odds : OddsDict) (r : RawRunner) : OddsDict :=
  if runnerClosed r then odds
  else
    let rn := r.name
    let p := r.price.getD 0
    if p = 0 ∨ p ≤ 1 ∨ p > 50 then odds
    else if sub "Больше".data rn then
      let line := pyStrip (pyReplace (pyReplace (pyReplace rn "Больше".data []) ['('] [])
        [')'] [])
      dictSet (px ++ "_over_".data ++ line) p odds
    else if sub "Меньше".data rn then
      let line := pyStrip (pyReplace (pyReplace (pyReplace rn "Меньше".data []) ['('] [])
        [')'] [])
      dictSet (px ++ "_under_".data ++ line) p odds
    else odds

/-- `_ou(runners, prefix)`. -/
def leonOU (px : List Char) (odds : OddsDict) (runners : List RawRunner) : OddsDict :=
  runners.foldl (leonRunnerOU px) odds

/-- Runner body of the local helper `_12(runners, p1, p2)` in
`api._parse_leon_markets` (src/api.py:453-464): note the count-limited
`rn.replace('1', '', 1)`. -/
def leonRunner12 (p1 p2 : List Char) (odds : OddsDict) (r : RawRunner) : OddsDict :=
  if runnerClosed r then odds
  else
    let rn := r.name
    let p := r.price.getD 0
    if p = 0 ∨ p ≤ 1 ∨ p > 50 then odds
    else if "1".data.isPrefixOf rn then
      let line := pyStrip (pyReplace (pyReplace (pyReplaceOnce rn ['1'] []) ['('] []) [')'] [])
      dictSet (p1 ++ "_".data ++ line) p odds
    else if "2".data.isPrefixOf rn then
      let line := pyStrip (pyReplace (pyReplace (pyReplaceOnce rn ['2'] []) ['('] []) [')'] [])
      dictSet (p2 ++ "_".data ++ line) p odds
    else odds

/-- `_12(runners, p1, p2)`. -/
def leon12 (p1 p2 : List Char) (odds : OddsDict) (runners : List RawRunner) : OddsDict :=
  runners.foldl (leonRunner12 p1 p2) odds

/-- Python `s.isdigit()` for the score-market runner names. -/
def pyIsDigit (s : List Char) : Bool := !s.isEmpty && s.all Char.isDigit

/-- One runner of the exact-score branch (src/api.py:477-486). -/
def leonRunnerScore (odds : OddsDict) (r : RawRunner) : OddsDict :=
  if runnerClosed r then odds
  else
    let rn := r.name
    let p := r.price.getD 0
    if p = 0 ∨ p ≤ 1 ∨ p > 50 then odds
    else if sub [':'] rn then
      match rn.splitOn ':' with
      | [h, a] =>
        let hs := pyStrip h
        let as_ := pyStrip a
        if pyIsDigit hs ∧ pyIsDigit as_ then
          dictSet ("score_".data ++ hs ++ "-".data ++ as_) p odds
        else odds
      | _ => odds
    else odds

/-- One runner of the odd/even branch (src/api.py:492-499): the runner name
is lowered before comparison. -/
def leonRunnerEvenOdd (odds : OddsDict) (r : RawRunner) : OddsDict :=
  if runnerClosed r then odds
  else
    let rn := lowerL r.name
    let p := r.price.getD 0
    if p = 0 ∨ p ≤ 1 ∨ p > 50 then odds
    else if rn = "чет".data ∨ rn = "чёт".data then dictSet "total_even".data p odds
    else if rn = "нечет".data ∨ rn = "нечёт".data then dictSet "total_odd".data p odds
    else odds

/-- One runner of a fixed-vocabulary branch (1X2, double chance, BTTS, DNB,
first goal, penalty): the guard is the positive `if p and p > 1 and p <= 50`
form; `pick` maps the runner name to the outcome key, if any. -/
def leonRunnerFixed (pick : RawRunner → Option (List Char)) (odds : OddsDict)
    (r : RawRunner) : OddsDict :=
  if runnerClosed r then odds
  else
    let p := r.price.getD 0
    if p ≠ 0 ∧ p > 1 ∧ p ≤ 50 then
      match pick r with
      | some k => dictSet k p odds
      | none => odds
    else odds

/-- Key choice for the `ИСХОД 1X2` branch (src/api.py:506-516). -/
def pick1x2 (r : RawRunner) : Option (List Char) :=
  if r.name = "1".data then some "home".data
  else if r.name = "X".data ∨ r.name = "Х".data then some "draw".data
  else if r.name = "2".data then some "away".data
  else none

/-- Key choice for the `ДВОЙНОЙ ШАНС` branch (src/api.py:518-528). -/
def pickDC (r : RawRunner) : Option (List Char) :=
  if r.name = "1X".data ∨ r.name = "1Х".data then some "dc_1x".data
  else if r.name = "X2".data ∨ r.name = "Х2".data then some "dc_x2".data
  else if r.name = "12".data then some "dc_12".data
  else none

/-- Key choice for the `ОБЕ ЗАБЬЮТ` branch (src/api.py:530-539). -/
def pickBtts (r : RawRunner) : Option (List Char) :=
  if r.name = "Да".data then some "btts_yes".data
  else if r.name = "Нет".data then some "btts_no".data
  else none

/-- Key choice for the `РЕЗУЛЬТАТ НЕ ВКЛЮЧАЯ НИЧЬЮ` branch
(src/api.py:541-550). -/
def pickDnb (r : RawRunner) : Option (List Char) :=
  if r.name = "1".data then some "dnb_home".data
  else if r.name = "2".data then some "dnb_away".data
  else none

/-- Key choice for the `КТО ЗАБЬЁТ ПЕРВЫЙ ГОЛ` branch (src/api.py:552-562). -/
def pickFirstGoal (r : RawRunner) : Option (List Char) :=
  if r.name = "1".data then some "first_goal_home".data
  else if r.name = "2".data then some "first_goal_away".data
  else if sub "не будет".data (lowerL r.name) then some "first_goal_none".data
  else none

/-- One runner of the `ПЕНАЛЬТИ` branch (src/api.py:564-572) — this branch
uses the `continue`-style guard. -/
def leonRunnerPenalty (odds : OddsDict) (r : RawRunner) : OddsDict :=
  if runnerClosed r then odds
  else
    let p := r.price.getD 0
    if p = 0 ∨ p ≤ 1 ∨ p > 50 then odds
    else if r.name = "Да".data then dictSet "penalty_yes".data p odds
    else if r.name = "Нет".data then dictSet "penalty_no".data p odds
    else odds

/-- The per-market body of `api._parse_leon_markets` (src/api.py:466-605):
one `elif` chain over the lowered market name `mn`, threading
`(odds, open_markets)`. -/
def leonStep (st : OddsDict × ℕ) (m : RawMarket) : OddsDict × ℕ :=
  let odds := st.1
  let cnt := st.2
  let mn := lowerL m.name
  if !m.isOpen then st
  -- === ТОЧНЫЙ СЧЁТ (до основного skip-фильтра) ===
  else if (sub "точный счет".data mn || sub "точный счёт".data mn)
      && !(sub "тайм".data mn) then
    (m.runners.foldl leonRunnerScore odds, cnt + 1)
  -- === ЧЁТ/НЕЧЁТ ТОТАЛ ГОЛОВ (до основного skip-фильтра) ===
  else if sub "чет".data mn && sub "нечет".data mn && !(sub "тайм".data mn)
      && !(sub "угловы".data mn) && !(sub "карточ".data mn) then
    (m.runners.foldl leonRunnerEvenOdd odds, cnt + 1)
  -- Пропускаем таймы и экзотику
  else if sub "тайм".data mn || sub "половин".data mn || sub "точн".data mn
      || sub "чет/нечет".data mn then st
  -- === ИСХОД 1X2 ===
  else if sub "исход".data mn && (sub "1х2".data mn || sub "1x2".data mn) then
    (m.runners.foldl (leonRunnerFixed pick1x2) odds, cnt + 1)
  -- === ДВОЙНОЙ ШАНС/ИСХОД (не угловые) ===
  else if sub "двойной".data mn && (sub "шанс".data mn || sub "исход".data mn)
      && !(sub "угловы".data mn) && !(sub "карточ".data mn) && !(sub "желт".data mn) then
    (m.runners.foldl (leonRunnerFixed pickDC) odds, cnt + 1)
  -- === ОБЕ ЗАБЬЮТ ===
  else if sub "обе".data mn && sub "забь".data mn then
    (m.runners.foldl (leonRunnerFixed pickBtts) odds, cnt + 1)
  -- === РЕЗУЛЬТАТ НЕ ВКЛЮЧАЯ НИЧЬЮ ===
  else if sub "результат".data mn && sub "ничью".data mn then
    (m.runners.foldl (leonRunnerFixed pickDnb) odds, cnt + 1)
  -- === КТО ЗАБЬЁТ ПЕРВЫЙ ГОЛ ===
  else if (sub "первый гол".data mn || sub "1-й гол".data mn)
      && !(sub "как ".data mn) then
    (m.runners.foldl (leonRunnerFixed pickFirstGoal) odds, cnt + 1)
  -- === ПЕНАЛЬТИ ===
  else if sub "пенал".data mn && sub "будет".data mn && !(sub "серия".data mn)
      && !(sub "команда".data mn) then
    (m.runners.foldl leonRunnerPenalty odds, cnt + 1)
  -- === УГЛОВЫЕ ===
  else if sub "угловы".data mn then
    if sub "кто".data mn || sub "фора".data mn || sub "двойной".data mn
        || sub "чет".data mn || sub "точн".data mn then st
    else if sub "хозяев".data mn then (leonOU "corners_home".data odds m.runners, cnt + 1)
    else if sub "гостей".data mn then (leonOU "corners_away".data odds m.runners, cnt + 1)
    else (leonOU "corners".data odds m.runners, cnt + 1)
  -- === КАРТОЧКИ (включая жёлтые) ===
  else if sub "карточ".data mn || (sub "желт".data mn && sub "тотал".data mn) then
    if sub "кто".data mn || sub "фора".data mn || sub "чет".data mn
        || sub "точн".data mn then st
    else if sub "хозяев".data mn then (leonOU "cards_home".data odds m.runners, cnt + 1)
    else if sub "гостей".data mn then (leonOU "cards_away".data odds m.runners, cnt + 1)
    else (leonOU "cards".data odds m.runners, cnt + 1)
  -- === ФОРА (обычная, не угловые) ===
  else if mn = "фора".data
      || (sub "фора".data mn && !(sub "азиат".data mn) && !(sub "угловы".data mn)) then
    (leon12 "handicap_home".data "handicap_away".data odds m.runners, cnt + 1)
  -- === ТОТАЛ ХОЗЯЕВ (только голы) ===
  else if sub "тотал".data mn && sub "хозяев".data mn && !(sub "угловы".data mn)
      && !(sub "карточ".data mn) && !(sub "удар".data mn) && !(sub "фол".data mn)
      && !(sub "офсайд".data mn) && !(sub "аут".data mn) then
    (leonOU "home".data odds m.runners, cnt + 1)
  -- === ТОТАЛ ГОСТЕЙ (только голы) ===
  else if sub "тотал".data mn && sub "гостей".data mn && !(sub "угловы".data mn)
      && !(sub "карточ".data mn) && !(sub "удар".data mn) && !(sub "фол".data mn)
      && !(sub "офсайд".data mn) && !(sub "аут".data mn) then
    (leonOU "away".data odds m.runners, cnt + 1)
  -- === ТОТАЛ ГОЛОВ (общий) — ТОЛЬКО точные названия ===
  else if mn = "тотал".data ∨ mn = "тотал голов".data ∨ mn = "тотал матча".data then
    (leonOU "total".data odds m.runners, cnt + 1)
  else st

/-- `api._parse_leon_markets(markets)` (src/api.py:435-611): returns the
odds mapping and the count of contributing markets. -/
def parse_leon_markets (markets : List RawMarket) : OddsDict × ℕ :=
  markets.foldl leonStep ([], 0)

end RMBot

namespace RMBot

/-- One entry of a `bets` list built by `api._build_live_markets`; `line` is
`none` for fixed (non-over/under) options. -/
structure BetOpt where
  key : List Char
  label : List Char
  odds : ℚ
  line : Option ℚ
deriving DecidableEq, Repr

/-- One market group emitted by `api._build_live_markets`. -/
structure BMarket where
  mtype : List Char
  category : List Char
  bets : List BetOpt
deriving DecidableEq, Repr

/-- `float(line)` for a line string collected by `_collect`'s first phase
(always parsable there, so the default is never used). -/
def lineVal (s : List Char) : ℚ := (parseDec s).getD 0

/-- Python truthiness of the `max_line` argument (`None` or `0` are falsy). -/
def maxTruthy (o : Option ℚ) : Bool := o.getD 0 ≠ 0

/-- First phase of `_collect(prefix, max_line, current_value)`
(src/api.py:1452-1468): gather the distinct line strings of the family,
skipping lines above the cap and lines already passed by the current
score. -/
def collectLines (odds : OddsDict) (px : List Char) (max_line : Option ℚ)
    (current_value : ℤ) : List (List Char) :=
  odds.foldl
    (fun acc kv =>
      let key := kv.1
      if (px ++ "_over_".data).isPrefixOf key ∨ (px ++ "_under_".data).isPrefixOf key then
        let line := pyReplace (pyReplace key (px ++ "_over_".data) [])
          (px ++ "_under_".data) []
        match parseDec line with
        | none => acc  -- except ValueError: continue
        | some line_val =>
          if maxTruthy max_line ∧ line_val > max_line.getD 0 then acc
          -- Скрываем линии которые уже пройдены (результат очевиден)
          else if current_value > 0 ∧ line_val < (current_value : ℚ) then acc
          else if line ∈ acc then acc else acc ++ [line]
      else acc)
    []

/-- Second phase of `_collect` (src/api.py:1469-1474): emit over (and, when
present, under) options for each surviving line, ascending by line value. -/
def collectBets (odds : OddsDict) (px : List Char) (lines : List (List Char)) :
    List BetOpt :=
  lines.foldl
    (fun bets line =>
      match truthyGet (px ++ "_over_".data ++ line) odds with
      | none => bets
      | some vOver =>
        let bets1 := bets ++ [⟨px ++ "_over_".data ++ line, "Б ".data ++ line, vOver,
          some (lineVal line)⟩]
        match truthyGet (px ++ "_under_".data ++ line) odds with
        | none => bets1
        | some vUnder => bets1 ++ [⟨px ++ "_under_".data ++ line, "М ".data ++ line,
            vUnder, some (lineVal line)⟩])
    []

/-- The local helper `_collect` of `api._build_live_markets`
(src/api.py:1452-1474). -/
def buildCollect (odds : OddsDict) (px : List Char) (max_line : Option ℚ)
    (current_value : ℤ) : List BetOpt :=
  collectBets odds px
    ((collectLines odds px max_line current_value).insertionSort
      fun a b => lineVal a ≤ lineVal b)

/-- Score parsing at the top of `api._build_live_markets`
(src/api.py:1442-1448): `'-'` is normalised to `':'`, both parts parsed with
`int`, and any failure falls back to `0:0`. -/
def parseScorePair (score : List Char) : ℤ × ℤ :=
  match (pyReplace score ['-'] [':']).splitOn ':' with
  | p0 :: p1 :: _ =>
    match parsePyInt p0, parsePyInt p1 with
    | some h, some a => (h, a)
    | _, _ => (0, 0)
  | _ => (0, 0)

/-- A fixed two/three-option market body: the guard key must be truthy, the
other options read with `odds.get(k, 0)`. -/
def fixedBets (odds : OddsDict) (ks : List (List Char × List Char)) : List BetOpt :=
  ks.map fun kl => ⟨kl.1, kl.2, (dictGet kl.1 odds).getD 0, none⟩

/-- The handicap block of `api._build_live_markets` (src/api.py:1527-1541):
collect distinct lines of both handicap keys, sort them by `float` — here,
unlike `_collect`, an unparsable line makes `sorted(key=float)` raise, which
the `none` result models — and emit `Ф1`/`Ф2` options per line. -/
def buildHandicap (odds : OddsDict) : Option (List BetOpt) :=
  let hLines := odds.foldl
    (fun acc kv =>
      let key := kv.1
      if "handicap_home_".data.isPrefixOf key ∨ "handicap_away_".data.isPrefixOf key then
        let line := pyReplace (pyReplace key "handicap_home_".data [])
          "handicap_away_".data []
        if line ∈ acc then acc else acc ++ [line]
      else acc)
    []
  if hLines.all fun l => (parseDec l).isSome then
    some ((hLines.insertionSort fun a b => lineVal a ≤ lineVal b).foldl
      (fun bets line =>
        let bets1 :=
          match truthyGet ("handicap_home_".data ++ line) odds with
          | none => bets
          | some v => bets ++ [⟨"handicap_home_".data ++ line,
              "Ф1 (".data ++ line ++ ")".data, v, some (lineVal line)⟩]
        match truthyGet ("handicap_away_".data ++ line) odds with
        | none => bets1
        | some v => bets1 ++ [⟨"handicap_away_".data ++ line,
            "Ф2 (".data ++ line ++ ")".data, v, some (lineVal line)⟩])
      [])
  else none

/-- The exact-score block of `api._build_live_markets` (src/api.py:1543-1553):
`score_` keys sorted ascending by price, capped at 15 options. -/
def buildScores (odds : OddsDict) : List BetOpt :=
  let score_keys := ((odds.filter fun kv => "score_".data.isPrefixOf kv.1).map (·.1))
    |>.insertionSort fun a b => (dictGet a odds).getD 0 ≤ (dictGet b odds).getD 0
  (score_keys.take 15).map fun key =>
    ⟨key, pyReplace (pyReplace key "score_".data []) ['-'] [':'],
      (dictGet key odds).getD 0, none⟩

/-- `api._build_live_markets(odds, home_team, away_team, score)`
(src/api.py:1436-1614); `none` models the `ValueError` escaping from the
handicap block's `sorted(key=float)` on an unparsable handicap line. -/
def build_live_markets (odds : OddsDict) (home_team away_team score : List Char) :
    Option (List BMarket) :=
  let h := if home_team = [] then "Хозяева".data else home_team
  let a := if away_team = [] then "Гости".data else away_team
  let hs := (parseScorePair score).1
  let as_ := (parseScorePair score).2
  let total_goals := hs + as_
  match buildHandicap odds with
  | none => none
  | some handicap_bets =>
    let m1 : List BMarket :=
      if maxTruthy (dictGet "home".data odds) then
        [⟨"match_result".data, "Исход матча".data,
          fixedBets odds [("home".data, "П1".data), ("draw".data, "X".data),
            ("away".data, "П2".data)]⟩]
      else []
    let m2 : List BMarket :=
      if maxTruthy (dictGet "dc_1x".data odds) then
        [⟨"double_chance".data, "Двойной шанс".data,
          fixedBets odds [("dc_1x".data, "1X".data), ("dc_x2".data, "X2".data),
            ("dc_12".data, "12".data)]⟩]
      else []
    -- 3. Тотал голов (макс линия 10.5 — всё выше не голы)
    let total_bets := buildCollect odds "total".data (some 10.5) total_goals
    let m3 : List BMarket :=
      if total_bets ≠ [] then [⟨"total_goals".data, "Тотал голов".data, total_bets⟩]
      else []
    -- 4. Обе забьют (скрываем в live)
    let m4 : List BMarket :=
      if maxTruthy (dictGet "btts_yes".data odds) ∧ total_goals = 0 then
        [⟨"btts".data, "Обе забьют".data,
          fixedBets odds [("btts_yes".data, "Да".data), ("btts_no".data, "Нет".data)]⟩]
      else []
    let m5 : List BMarket :=
      if maxTruthy (dictGet "dnb_home".data odds) then
        [⟨"dnb".data, "Результат без ничьей".data,
          fixedBets odds [("dnb_home".data, "П1 (".data ++ h ++ ")".data),
            ("dnb_away".data, "П2 (".data ++ a ++ ")".data)]⟩]
      else []
    -- 6. Кто забьёт первый гол (скрываем если голы уже были)
    let m6 : List BMarket :=
      if maxTruthy (dictGet "first_goal_home".data odds) ∧ total_goals = 0 then
        [⟨"first_goal".data, "Кто забьёт первый гол".data,
          fixedBets odds [("first_goal_home".data, "1 (".data ++ h ++ ")".data),
            ("first_goal_none".data, "Не будет".data),
            ("first_goal_away".data, "2 (".data ++ a ++ ")".data)]⟩]
      else []
    let m7 : List BMarket :=
      if handicap_bets ≠ [] then [⟨"handicap".data, "Фора".data, handicap_bets⟩] else []
    let score_bets := buildScores odds
    let m8 : List BMarket :=
      if score_bets ≠ [] then
        [⟨"correct_score".data, "Точный счёт".data, score_bets⟩]
      else []
    let m9 : List BMarket :=
      if maxTruthy (dictGet "total_even".data odds) ∧
          maxTruthy (dictGet "total_odd".data odds) then
        [⟨"odd_even".data, "Чёт/Нечёт голов".data,
          fixedBets odds [("total_even".data, "Чёт".data), ("total_odd".data, "Нечёт".data)]⟩]
      else []
    -- 10./11. ИТ хозяев/гостей (макс 7.5)
    let home_bets := buildCollect odds "home".data (some 7.5) hs
    let m10 : List BMarket :=
      if home_bets ≠ [] then
        [⟨"home_total".data, "ИТ хозяев (".data ++ h ++ ")".data, home_bets⟩]
      else []
    let away_bets := buildCollect odds "away".data (some 7.5) as_
    let m11 : List BMarket :=
      if away_bets ≠ [] then
        [⟨"away_total".data, "ИТ гостей (".data ++ a ++ ")".data, away_bets⟩]
      else []
    -- 12. Тотал угловых (макс 20)
    let corner_bets := buildCollect odds "corners".data (some 20) 0
    let m12 : List BMarket :=
      if corner_bets ≠ [] then
        [⟨"total_corners".data, "Тотал угловых".data, corner_bets⟩]
      else []
    let ch_bets := buildCollect odds "corners_home".data none 0
    let m13 : List BMarket :=
      if ch_bets ≠ [] then
        [⟨"corners_home".data, "Угловые хозяев (".data ++ h ++ ")".data, ch_bets⟩]
      else []
    let ca_bets := buildCollect odds "corners_away".data none 0
    let m14 : List BMarket :=
      if ca_bets ≠ [] then
        [⟨"corners_away".data, "Угловые гостей (".data ++ a ++ ")".data, ca_bets⟩]
      else []
    -- 15. Тотал карточек (макс 12)
    let card_bets := buildCollect odds "cards".data (some 12) 0
    let m15 : List BMarket :=
      if card_bets ≠ [] then
        [⟨"total_cards".data, "Тотал карточек".data, card_bets⟩]
      else []
    let cdh_bets := buildCollect odds "cards_home".data none 0
    let m16 : List BMarket :=
      if cdh_bets ≠ [] then
        [⟨"cards_home".data, "Карточки хозяев (".data ++ h ++ ")".data, cdh_bets⟩]
      else []
    let cda_bets := buildCollect odds "cards_away".data none 0
    let m17 : List BMarket :=
      if cda_bets ≠ [] then
        [⟨"cards_away".data, "Карточки гостей (".data ++ a ++ ")".data, cda_bets⟩]
      else []
    let m18 : List BMarket :=
      if maxTruthy (dictGet "penalty_yes".data odds) then
        [⟨"penalty".data, "Будет ли пенальти".data,
          fixedBets odds [("penalty_yes".data, "Да".data), ("penalty_no".data, "Нет".data)]⟩]
      else []
    some (m1 ++ m2 ++ m3 ++ m4 ++ m5 ++ m6 ++ m7 ++ m8 ++ m9 ++ m10 ++ m11 ++
      m12 ++ m13 ++ m14 ++ m15 ++ m16 ++ m17 ++ m18)

end RMBot

namespace RMBot

/-! ## Helper lemmas about the resolvers -/

lemma withLine_some {l : List Char} {q : ℚ} (h : parseDec l = some q)
    (k : ℚ → ApiRes) : withLine l k = k q := by
  simp [withLine, h]

lemma withLineB_some {l : List Char} {q : ℚ} (h : parseDec l = some q)
    (k : ℚ → BotRes) : withLineB l k = k q := by
  simp [withLineB, h]

/-- The four over/under families `settle_bet_by_type` dispatches on. -/
inductive OUFam | total | corners | homeT | awayT
deriving DecidableEq, Repr

/-- The key marker of a family/side, as stripped by the resolver. -/
def ouMarker : OUFam → Bool → List Char
  | .total, true => "total_over_".data
  | .total, false => "total_under_".data
  | .corners, true => "corners_over_".data
  | .corners, false => "corners_under_".data
  | .homeT, true => "home_total_over_".data
  | .homeT, false => "home_total_under_".data
  | .awayT, true => "away_total_over_".data
  | .awayT, false => "away_total_under_".data

/-- The statistic `settle_bet_by_type` compares against the family's line. -/
def ouStat : OUFam → ApiStats → ℤ
  | .total, s => s.total_goals
  | .corners, s => s.total_corners
  | .homeT, s => s.home_score
  | .awayT, s => s.away_score

lemma settle_ou_eval (fam : OUFam) (over : Bool) (ls : List Char) (s : ApiStats) :
    settle_bet_by_type (ouMarker fam over ++ ls) s =
      withLine (pyReplace (ouMarker fam over ++ ls) (ouMarker fam over) [])
        (fun line =>
          if (ouStat fam s : ℚ) = line ∧ line.den = 1 then .push
          else if (if over then (ouStat fam s : ℚ) > line
                   else (ouStat fam s : ℚ) < line) then .win
          else .lose) := by
  cases fam <;> cases over <;>
    simp [settle_bet_by_type, List.isPrefixOf, ouMarker, ouStat]

lemma bot_total_over_eval (ls : List Char) (s : BotStats) :
    check_bet_won ("total_over_".data ++ ls) s =
      withLineB (pyReplace ("total_over_".data ++ ls) "total_over_".data [])
        (fun line => botOf ((s.total_goals : ℚ) > line)) := by
  simp [check_bet_won, List.isPrefixOf]

lemma settle_handicap_eval (home : Bool) (ls : List Char) (s : ApiStats) :
    settle_bet_by_type
        ((if home then "handicap_home_".data else "handicap_away_".data) ++ ls) s =
      withLine (pyReplace
          ((if home then "handicap_home_".data else "handicap_away_".data) ++ ls)
          (if home then "handicap_home_".data else "handicap_away_".data) [])
        (fun line =>
          if (if home then (s.home_score : ℚ) - (s.away_score : ℚ)
              else (s.away_score : ℚ) - (s.home_score : ℚ)) + line = 0 then .push
          else if (if home then (s.home_score : ℚ) - (s.away_score : ℚ)
              else (s.away_score : ℚ) - (s.home_score : ℚ)) + line > 0 then .win
          else .lose) := by
  cases home <;> simp [settle_bet_by_type, List.isPrefixOf]

lemma bot_handicap_home_eval (ls : List Char) (s : BotStats) :
    check_bet_won ("handicap_home_".data ++ ls) s =
      withLineB (pyReplace ("handicap_home_".data ++ ls) "handicap_home_".data [])
        (fun line => botOf ((s.home_score : ℚ) - (s.away_score : ℚ) + line > 0)) := by
  simp [check_bet_won, checkTail, List.isPrefixOf]

end RMBot

namespace RMBot

example : settle_bet_by_type "total_over_2".data
    ⟨2, 0, 2, 0, false, "home".data, none⟩ = .push := by with_unfolding_all decide

example : settle_bet_by_type "total_over_2.5".data
    ⟨2, 1, 3, 0, false, "home".data, none⟩ = .win := by with_unfolding_all decide

example : settle_bet_by_type "total_under_2.5".data
    ⟨1, 1, 2, 0, false, "draw".data, none⟩ = .win := by with_unfolding_all decide

example : settle_bet_by_type "handicap_home_1".data
    ⟨3, 4, 7, 0, true, "away".data, none⟩ = .push := by with_unfolding_all decide

example : settle_bet_by_type "first_goal_home".data
    ⟨2, 1, 3, 0, true, "home".data, none⟩ = .lose := by with_unfolding_all decide

example : check_bet_won "first_goal_home".data
    ⟨"home".data, 2, 1, 3, true, 0, 0, 0, 0, 0, 0, false, []⟩ = .undet := by with_unfolding_all decide

example : check_bet_won "total_over_2".data
    ⟨"home".data, 2, 0, 2, false, 0, 0, 0, 0, 0, 0, false, "home".data⟩ = .lose := by
  with_unfolding_all decide

example : check_bet_won "handicap_home_1".data
    ⟨"away".data, 3, 4, 7, true, 0, 0, 0, 0, 0, 0, false, "home".data⟩ = .lose := by
  with_unfolding_all decide

end RMBot

namespace RMBot

/-! ## Claim C2: push semantics of over/under lines -/

/-- **C2 (amended).** In the API resolver `settle_bet_by_type`, for every
over/under family it implements (`total`, `corners`, `home_total`,
`away_total`): a whole-number line met exactly by the statistic resolves
`Push`, a non-integer (half-point) line compares strictly and never pushes;
in particular `total_over_2` with 2 goals and `total_under_2` with 2 goals
are `Push`, `total_over_2.5` with 3 goals and `total_under_2.5` with 2 goals
are `Won`.  The bot resolver `check_bet_won`, by contrast, compares every
line strictly (`total > line` / `total < line`) and has no push outcome at
all, so an exact hit on a whole-number line is `Lost` there. -/
theorem rm_C2_amended :
    (∀ (fam : OUFam) (over : Bool) (ls : List Char) (q : ℚ) (s : ApiStats),
      parseDec (pyReplace (ouMarker fam over ++ ls) (ouMarker fam over) []) = some q →
      q.den = 1 → (ouStat fam s : ℚ) = q →
      settle_bet_by_type (ouMarker fam over ++ ls) s = .push) ∧
    (∀ (fam : OUFam) (over : Bool) (ls : List Char) (q : ℚ) (s : ApiStats),
      parseDec (pyReplace (ouMarker fam over ++ ls) (ouMarker fam over) []) = some q →
      q.den ≠ 1 →
      settle_bet_by_type (ouMarker fam over ++ ls) s =
        (if (if over then (ouStat fam s : ℚ) > q else (ouStat fam s : ℚ) < q)
         then .win else .lose)) ∧
    (settle_bet_by_type "total_over_2".data ⟨2, 0, 2, 0, false, "home".data, none⟩
        = .push ∧
     settle_bet_by_type "total_under_2".data ⟨2, 0, 2, 0, false, "home".data, none⟩
        = .push ∧
     settle_bet_by_type "total_over_2.5".data ⟨2, 1, 3, 0, false, "home".data, none⟩
        = .win ∧
     settle_bet_by_type "total_under_2.5".data ⟨1, 1, 2, 0, false, "draw".data, none⟩
        = .win) ∧
    (∀ (ls : List Char) (q : ℚ) (s : BotStats),
      parseDec (pyReplace ("total_over_".data ++ ls) "total_over_".data []) = some q →
      check_bet_won ("total_over_".data ++ ls) s = botOf ((s.total_goals : ℚ) > q)) := by
  refine ⟨?_, ?_, ⟨?_, ?_, ?_, ?_⟩, ?_⟩
  · intro fam over ls q s hp hden heq
    rw [settle_ou_eval, withLine_some hp, if_pos ⟨heq, hden⟩]
  · intro fam over ls q s hp hden
    rw [settle_ou_eval, withLine_some hp, if_neg (fun h => hden h.2)]
  · with_unfolding_all decide
  · with_unfolding_all decide
  · with_unfolding_all decide
  · with_unfolding_all decide
  · intro ls q s hp
    rw [bot_total_over_eval, withLineB_some hp]

/-- **C2 (witness).** Conjuncts 1, 2 and 4 of `rm_C2_amended` applied at
concrete inputs. -/
theorem rm_C2_witness :
    settle_bet_by_type ("total_over_".data ++ "3".data)
      ⟨1, 2, 3, 5, true, "away".data, none⟩ = .push ∧
    settle_bet_by_type ("corners_under_".data ++ "9.5".data)
      ⟨1, 2, 3, 8, true, "away".data, none⟩ =
      (if (if false then ((8 : ℤ) : ℚ) > 19/2 else ((8 : ℤ) : ℚ) < 19/2)
       then ApiRes.win else ApiRes.lose) ∧
    check_bet_won ("total_over_".data ++ "2".data)
      ⟨"home".data, 2, 0, 2, false, 0, 0, 0, 0, 0, 0, false, "home".data⟩ =
      botOf (((2 : ℤ) : ℚ) > 2) := by
  refine ⟨?_, ?_, ?_⟩
  · exact rm_C2_amended.1 .total true "3".data 3 ⟨1, 2, 3, 5, true, "away".data, none⟩
      (by with_unfolding_all decide) (by with_unfolding_all decide)
      (by with_unfolding_all decide)
  · exact rm_C2_amended.2.1 .corners false "9.5".data (19/2)
      ⟨1, 2, 3, 8, true, "away".data, none⟩
      (by with_unfolding_all decide) (by with_unfolding_all decide)
  · exact rm_C2_amended.2.2.2 "2".data 2
      ⟨"home".data, 2, 0, 2, false, 0, 0, 0, 0, 0, 0, false, "home".data⟩
      (by with_unfolding_all decide)

/-- **C2 (counterexample).** The claim quantifies over "resolve", but the
bot-side resolver `check_bet_won` (src/bot.py:390-396, one of the claim's two
cited code sites) gives `total_over_2` with `total_goals = 2` as a plain
loss, and its settlement pass `settle_all_bets` marks the wager `lost` with
the user's balance unchanged — no push, no stake refund. -/
theorem rm_C2_counterexample :
    check_bet_won "total_over_2".data
      ⟨"home".data, 2, 0, 2, false, 0, 0, 0, 0, 0, 0, false, "home".data⟩ = .lose ∧
    (settle_all_bets "m1".data
        ⟨"home".data, 2, 0, 2, false, 0, 0, 0, 0, 0, 0, false, "home".data⟩
        ⟨[⟨7, 100, 0, none, 0, 0, 0, 0, 0, 0, 0, 0, 0⟩],
         [⟨1, 7, "m1".data, "total_over_2".data, 30, 19/10, 57, "pending".data, 0⟩],
         [], [], 2⟩).map
      (fun rd => (rd.1, rd.2.bets.map Bet.status, rd.2.users.map User.balance)) =
      some (⟨1, 0, 1, 0, 0⟩, [ "lost".data ], [100]) := by
  constructor
  · with_unfolding_all decide
  · with_unfolding_all decide

end RMBot

namespace RMBot

/-! ## Claim C6: handicap resolution -/

/-- **C6 (amended).** In the API resolver `settle_bet_by_type`, for every
`handicap_{side}_{line}` key the quantity `side_score - other_score + line`
decides the wager: exactly `0` is `Push` (stake refunded by the settlement
loop), positive is `Won`, otherwise `Lost`; in particular `handicap_home_1`
at 3:4 is `Push`.  The bot resolver `check_bet_won`, by contrast, only
checks `> 0` — a zero handicap difference is `Lost` there, never `Push`. -/
theorem rm_C6_amended :
    (∀ (home : Bool) (ls : List Char) (q : ℚ) (s : ApiStats),
      parseDec (pyReplace
          ((if home then "handicap_home_".data else "handicap_away_".data) ++ ls)
          (if home then "handicap_home_".data else "handicap_away_".data) []) = some q →
      settle_bet_by_type
          ((if home then "handicap_home_".data else "handicap_away_".data) ++ ls) s =
        (if (if home then (s.home_score : ℚ) - (s.away_score : ℚ)
             else (s.away_score : ℚ) - (s.home_score : ℚ)) + q = 0 then .push
         else if (if home then (s.home_score : ℚ) - (s.away_score : ℚ)
             else (s.away_score : ℚ) - (s.home_score : ℚ)) + q > 0 then .win
         else .lose)) ∧
    settle_bet_by_type "handicap_home_1".data ⟨3, 4, 7, 0, true, "away".data, none⟩
      = .push ∧
    (∀ (ls : List Char) (q : ℚ) (s : BotStats),
      parseDec (pyReplace ("handicap_home_".data ++ ls) "handicap_home_".data [])
        = some q →
      check_bet_won ("handicap_home_".data ++ ls) s =
        botOf ((s.home_score : ℚ) - (s.away_score : ℚ) + q > 0)) := by
  refine ⟨?_, ?_, ?_⟩
  · intro home ls q s hp
    rw [settle_handicap_eval, withLine_some hp]
  · with_unfolding_all decide
  · intro ls q s hp
    rw [bot_handicap_home_eval, withLineB_some hp]

/-- **C6 (witness).** Conjuncts 1 and 3 of `rm_C6_amended` applied at
concrete inputs. -/
theorem rm_C6_witness :
    settle_bet_by_type
        ((if true then "handicap_home_".data else "handicap_away_".data) ++ "1".data)
        ⟨3, 4, 7, 0, true, "away".data, none⟩ =
      (if (if true then ((3 : ℤ) : ℚ) - ((4 : ℤ) : ℚ)
           else ((4 : ℤ) : ℚ) - ((3 : ℤ) : ℚ)) + 1 = 0 then ApiRes.push
       else if (if true then ((3 : ℤ) : ℚ) - ((4 : ℤ) : ℚ)
           else ((4 : ℤ) : ℚ) - ((3 : ℤ) : ℚ)) + 1 > 0 then ApiRes.win
       else ApiRes.lose) ∧
    check_bet_won ("handicap_home_".data ++ "1".data)
      ⟨"away".data, 3, 4, 7, true, 0, 0, 0, 0, 0, 0, false, "away".data⟩ =
      botOf (((3 : ℤ) : ℚ) - ((4 : ℤ) : ℚ) + 1 > 0) := by
  constructor
  · exact rm_C6_amended.1 true "1".data 1 ⟨3, 4, 7, 0, true, "away".data, none⟩
      (by with_unfolding_all decide)
  · exact rm_C6_amended.2.2 "1".data 1
      ⟨"away".data, 3, 4, 7, true, 0, 0, 0, 0, 0, 0, false, "away".data⟩
      (by with_unfolding_all decide)

/-- **C6 (counterexample).** The bot resolver `check_bet_won`
(src/bot.py:477-483, one of the claim's two cited code sites) resolves
`handicap_home_1` at score 3:4 — where `3 - 4 + 1 = 0` — as `Lost`, not
`Push`, and its settlement pass marks the wager `lost` without refunding the
stake. -/
theorem rm_C6_counterexample :
    check_bet_won "handicap_home_1".data
      ⟨"away".data, 3, 4, 7, true, 0, 0, 0, 0, 0, 0, false, "away".data⟩ = .lose ∧
    (settle_all_bets "m1".data
        ⟨"away".data, 3, 4, 7, true, 0, 0, 0, 0, 0, 0, false, "away".data⟩
        ⟨[⟨7, 100, 0, none, 0, 0, 0, 0, 0, 0, 0, 0, 0⟩],
         [⟨1, 7, "m1".data, "handicap_home_1".data, 30, 19/10, 57, "pending".data, 0⟩],
         [], [], 2⟩).map
      (fun rd => (rd.1, rd.2.bets.map Bet.status, rd.2.users.map User.balance)) =
      some (⟨1, 0, 1, 0, 0⟩, [ "lost".data ], [100]) := by
  constructor
  · with_unfolding_all decide
  · with_unfolding_all decide

end RMBot

namespace RMBot

/-! ## Claim C1: undetermined first-goal wagers -/

lemma bot_first_goal_home_undet (s : BotStats) (h : s.first_goal = []) :
    check_bet_won "first_goal_home".data s = .undet := by
  simp [check_bet_won, List.isPrefixOf, h]

lemma bot_first_goal_away_undet (s : BotStats) (h : s.first_goal = []) :
    check_bet_won "first_goal_away".data s = .undet := by
  simp [check_bet_won, List.isPrefixOf, h]

/-- A pass of the bot's bet loop over wagers that all resolve `None`
changes nothing and counts nothing. -/
lemma botLoop_undet (stats : BotStats) :
    ∀ (l : List Bet) (r : BotResult) (db : DB),
      (∀ b ∈ l, check_bet_won b.bet_type stats = .undet) →
      botLoop stats l r db = some (r, db) := by
  intro l
  induction l with
  | nil => intro r db _; rfl
  | cons b rest ih =>
    intro r db h
    have hb := h b (by simp)
    simp only [botLoop, hb]
    exact ih r db fun x hx => h x (by simp [hx])

/-- **C1 (amended).** When `MatchStatistics` has no derivable first-goal
side, the bot resolver `check_bet_won` returns `None` for
`first_goal_home` / `first_goal_away` and the bot settlement pass
`settle_all_bets` is a complete no-op on a match whose pending wagers are
all such first-goal wagers (and which has no pending predictions): every
wager stays `pending`, balances, ledger and counters are untouched.  (The
API-side pair `settle_bet_by_type` / `settle_all_bets_advanced` instead
settles such wagers as `Lost` — see the counterexample.) -/
theorem rm_C1_amended :
    ∀ (stats : BotStats) (db : DB) (m : List Char),
      stats.first_goal = [] →
      (∀ b ∈ db.bets.filter (pendingBetP m),
        b.bet_type = "first_goal_home".data ∨ b.bet_type = "first_goal_away".data) →
      db.preds.filter (pendingPredP m) = [] →
      check_bet_won "first_goal_home".data stats = .undet ∧
      check_bet_won "first_goal_away".data stats = .undet ∧
      settle_all_bets m stats db = some (⟨0, 0, 0, 0, 0⟩, db) := by
  intro stats db m hfg hbets hpreds
  have h1 := bot_first_goal_home_undet stats hfg
  have h2 := bot_first_goal_away_undet stats hfg
  have hc : ∀ b ∈ db.bets.filter (pendingBetP m),
      check_bet_won b.bet_type stats = .undet := by
    intro b hb
    rcases hbets b hb with h | h <;> rw [h]
    · exact h1
    · exact h2
  refine ⟨h1, h2, ?_⟩
  simp only [settle_all_bets]
  rw [botLoop_undet stats _ ⟨0, 0, 0, 0, 0⟩ db hc]
  simp only [hpreds]
  rfl

/-- **C1 (witness).** `rm_C1_amended` applied to a one-wager database with
statistics whose `first_goal` is underivable. -/
theorem rm_C1_witness :
    check_bet_won "first_goal_home".data
      ⟨"home".data, 2, 1, 3, true, 0, 0, 0, 0, 0, 0, false, []⟩ = .undet ∧
    check_bet_won "first_goal_away".data
      ⟨"home".data, 2, 1, 3, true, 0, 0, 0, 0, 0, 0, false, []⟩ = .undet ∧
    settle_all_bets "m1".data
      ⟨"home".data, 2, 1, 3, true, 0, 0, 0, 0, 0, 0, false, []⟩
      ⟨[⟨7, 100, 0, none, 0, 0, 0, 0, 0, 0, 0, 0, 0⟩],
       [⟨1, 7, "m1".data, "first_goal_home".data, 30, 19/10, 57, "pending".data, 0⟩],
       [], [], 2⟩ =
      some (⟨0, 0, 0, 0, 0⟩,
        ⟨[⟨7, 100, 0, none, 0, 0, 0, 0, 0, 0, 0, 0, 0⟩],
         [⟨1, 7, "m1".data, "first_goal_home".data, 30, 19/10, 57, "pending".data, 0⟩],
         [], [], 2⟩) :=
  rm_C1_amended
    ⟨"home".data, 2, 1, 3, true, 0, 0, 0, 0, 0, 0, false, []⟩
    ⟨[⟨7, 100, 0, none, 0, 0, 0, 0, 0, 0, 0, 0, 0⟩],
     [⟨1, 7, "m1".data, "first_goal_home".data, 30, 19/10, 57, "pending".data, 0⟩],
     [], [], 2⟩
    "m1".data rfl
    (by with_unfolding_all decide)
    (by with_unfolding_all decide)

/-- **C1 (counterexample).** The API-side resolver `settle_bet_by_type`
(src/api.py:5252-5258, one of the claim's cited code sites) returns `False`
for `first_goal_home` when `stats` has no `first_goal` key — and
`api.get_match_statistics` never writes that key — so
`settle_all_bets_advanced` settles the wager as `lost` instead of leaving it
pending: here the final score is 2:0, so home necessarily scored first and
the wager is settled `lost` even though the statistics satisfy it. -/
theorem rm_C1_counterexample :
    settle_bet_by_type "first_goal_home".data ⟨2, 0, 2, 0, false, "home".data, none⟩
      = .lose ∧
    (settle_all_bets_advanced "m1".data ⟨2, 0, 2, 0, false, "home".data, none⟩
        ⟨[⟨7, 100, 0, none, 0, 0, 0, 0, 0, 0, 0, 0, 0⟩],
         [⟨1, 7, "m1".data, "first_goal_home".data, 30, 19/10, 57, "pending".data, 0⟩],
         [], [], 2⟩).map
      (fun rd => (rd.1, rd.2.bets.map Bet.status, rd.2.users.map User.balance)) =
      some (⟨1, 0, 0, 1, 0⟩, [ "lost".data ], [100]) := by
  constructor
  · with_unfolding_all decide
  · with_unfolding_all decide

end RMBot

namespace RMBot

/-! ## Claim C3: idempotent settlement -/

/-- Every terminal status the API bet loop writes differs from `'pending'`,
and a bet left untouched keeps its fields; so after a pass whose worklist
covers all pending bets of the match, no pending bet of that match
remains.  The second conjunct records that the bet loop never touches
predictions. -/
lemma advLoop_clears (stats : ApiStats) (m : List Char) :
    ∀ (todo : List Bet) (c : AdvResult) (db : DB) (c' : AdvResult) (db' : DB),
      advLoop stats todo c db = some (c', db') →
      (∀ b ∈ db.bets, b.match_id = m → b.status = "pending".data →
        b.bet_id ∈ todo.map Bet.bet_id) →
      (∀ b ∈ db'.bets, b.match_id = m → b.status ≠ "pending".data) ∧
      db'.preds = db.preds := by
  intro todo
  induction todo with
  | nil =>
    intro c db c' db' h hcov
    simp only [advLoop, Option.some.injEq, Prod.mk.injEq] at h
    obtain ⟨-, hdb⟩ := h
    subst hdb
    refine ⟨fun b hb hm hp => ?_, rfl⟩
    simpa using hcov b hb hm hp
  | cons t rest ih =>
    intro c db c' db' h hcov
    have hcov₂ : ∀ (st : List Char), st ≠ "pending".data →
        ∀ b ∈ (updBet t.bet_id (fun x => { x with status := st }) db).bets,
          b.match_id = m → b.status = "pending".data →
          b.bet_id ∈ rest.map Bet.bet_id := by
      intro st hst b hb hm hp
      simp only [updBet, List.mem_map] at hb
      obtain ⟨x, hx, hbx⟩ := hb
      by_cases hid : x.bet_id = t.bet_id
      · rw [if_pos hid] at hbx
        rw [← hbx] at hp
        exact absurd hp hst
      · rw [if_neg hid] at hbx
        subst hbx
        have := hcov x hx hm hp
        simp only [List.map_cons, List.mem_cons] at this
        rcases this with h1 | h1
        · exact absurd h1 hid
        · exact h1
    rw [advLoop] at h
    cases hs : settle_bet_by_type t.bet_type stats with
    | err => rw [hs] at h; cases h
    | push =>
      rw [hs] at h
      have := ih _ _ _ _ h (hcov₂ "returned".data (by decide))
      exact ⟨this.1, this.2⟩
    | win =>
      rw [hs] at h
      have := ih _ _ _ _ h (hcov₂ "won".data (by decide))
      exact ⟨this.1, this.2⟩
    | lose =>
      rw [hs] at h
      have := ih _ _ _ _ h (hcov₂ "lost".data (by decide))
      exact ⟨this.1, this.2⟩

/-- Analogue of `advLoop_clears` for the prediction loop: after a pass whose
worklist covers all pending predictions of the match, none remains pending;
bets are untouched. -/
lemma advPredLoop_clears (stats : ApiStats) (m : List Char) :
    ∀ (todo : List Pred) (c : AdvResult) (db : DB),
      (∀ p ∈ db.preds, p.match_id = m → p.status = "pending".data →
        p.prediction_id ∈ todo.map Pred.prediction_id) →
      (∀ p ∈ (advPredLoop stats todo c db).2.preds, p.match_id = m →
        p.status ≠ "pending".data) ∧
      (advPredLoop stats todo c db).2.bets = db.bets := by
  intro todo
  induction todo with
  | nil =>
    intro c db hcov
    refine ⟨fun p hp hm hpe => ?_, rfl⟩
    simpa using hcov p hp hm hpe
  | cons t rest ih =>
    intro c db hcov
    have hcov₂ : ∀ (st : List Char), st ≠ "pending".data →
        ∀ p ∈ (updPred t.prediction_id (fun x => { x with status := st }) db).preds,
          p.match_id = m → p.status = "pending".data →
          p.prediction_id ∈ rest.map Pred.prediction_id := by
      intro st hst p hp hm hpe
      simp only [updPred, List.mem_map] at hp
      obtain ⟨x, hx, hpx⟩ := hp
      by_cases hid : x.prediction_id = t.prediction_id
      · rw [if_pos hid] at hpx
        rw [← hpx] at hpe
        exact absurd hpe hst
      · rw [if_neg hid] at hpx
        subst hpx
        have := hcov x hx hm hpe
        simp only [List.map_cons, List.mem_cons] at this
        rcases this with h1 | h1
        · exact absurd h1 hid
        · exact h1
    rw [advPredLoop]
    by_cases hp : t.prediction = stats.outcome
    · rw [if_pos hp]
      exact ih _ _ (hcov₂ "correct".data (by decide))
    · rw [if_neg hp]
      exact ih _ _ (hcov₂ "incorrect".data (by decide))

/-- **C3 (confirmed).** The API settlement pass only selects rows whose
status is still `'pending'` and moves every selected row to a terminal
status, so a second pass over the same match with the same statistics
selects nothing: it settles zero wagers and zero predictions (all counters
of the returned dictionary are zero) and returns the database completely
unchanged — no status transition, no balance change, and (since this pass
never writes transactions at all) zero new ledger entries. -/
theorem rm_C3_idempotent :
    ∀ (m : List Char) (stats : ApiStats) (db : DB) (c1 : AdvResult) (db1 : DB),
      settle_all_bets_advanced m stats db = some (c1, db1) →
      settle_all_bets_advanced m stats db1 = some (⟨0, 0, 0, 0, 0⟩, db1) := by
  intro m stats db c1 db1 h
  unfold settle_all_bets_advanced at h
  cases hA : advLoop stats (db.bets.filter (pendingBetP m)) ⟨0, 0, 0, 0, 0⟩ db with
  | none => rw [hA] at h; cases h
  | some rd =>
    obtain ⟨r, dbA⟩ := rd
    rw [hA] at h
    simp only [Option.some.injEq] at h
    have hclear := advLoop_clears stats m _ _ _ _ _ hA
      (by
        intro b hb hm hp
        refine List.mem_map.mpr ⟨b, ?_, rfl⟩
        exact List.mem_filter.mpr ⟨hb, by simp [pendingBetP, hm, hp]⟩)
    have hpred := advPredLoop_clears stats m (dbA.preds.filter (pendingPredP m)) r dbA
      (by
        intro p hp hm hpe
        refine List.mem_map.mpr ⟨p, ?_, rfl⟩
        exact List.mem_filter.mpr ⟨hp, by simp [pendingPredP, hm, hpe]⟩)
    have hdb1 : (advPredLoop stats (dbA.preds.filter (pendingPredP m)) r dbA).2
        = db1 := congrArg Prod.snd h
    have hbets1 : db1.bets = dbA.bets := by rw [← hdb1]; exact hpred.2
    have hpreds1 : ∀ p ∈ db1.preds, p.match_id = m → p.status ≠ "pending".data := by
      rw [← hdb1]; exact hpred.1
    have hf1 : db1.bets.filter (pendingBetP m) = [] := by
      refine List.filter_eq_nil_iff.mpr fun b hb => ?_
      rw [hbets1] at hb
      simp only [pendingBetP, decide_eq_true_eq, not_and]
      exact hclear.1 b hb
    have hf2 : db1.preds.filter (pendingPredP m) = [] := by
      refine List.filter_eq_nil_iff.mpr fun p hp => ?_
      simp only [pendingPredP, decide_eq_true_eq, not_and]
      exact hpreds1 p hp
    unfold settle_all_bets_advanced
    rw [hf1]
    show some (advPredLoop stats (db1.preds.filter (pendingPredP m)) ⟨0, 0, 0, 0, 0⟩ db1)
      = _
    rw [hf2]
    rfl

/-- **C3 (witness).** `rm_C3_idempotent` applied to a first pass over a
one-wager, one-prediction database. -/
theorem rm_C3_witness :
    settle_all_bets_advanced "m1".data ⟨2, 0, 2, 0, false, "home".data, none⟩
      ⟨[⟨7, 100, 0, none, 0, 0, 0, 0, 0, 0, 0, 0, 0⟩],
       [⟨1, 7, "m1".data, "home".data, 30, 2, 60, "pending".data, 0⟩],
       [⟨1, 7, "m1".data, "home".data, "pending".data, 0⟩], [], 2⟩ =
      some (⟨1, 1, 1, 0, 0⟩,
        ⟨[⟨7, 170, 0, none, 0, 0, 0, 0, 1, 0, 0, 0, 0⟩],
         [⟨1, 7, "m1".data, "home".data, 30, 2, 60, "won".data, 0⟩],
         [⟨1, 7, "m1".data, "home".data, "correct".data, 0⟩], [], 2⟩) ∧
    settle_all_bets_advanced "m1".data ⟨2, 0, 2, 0, false, "home".data, none⟩
      ⟨[⟨7, 170, 0, none, 0, 0, 0, 0, 1, 0, 0, 0, 0⟩],
       [⟨1, 7, "m1".data, "home".data, 30, 2, 60, "won".data, 0⟩],
       [⟨1, 7, "m1".data, "home".data, "correct".data, 0⟩], [], 2⟩ =
      some (⟨0, 0, 0, 0, 0⟩,
        ⟨[⟨7, 170, 0, none, 0, 0, 0, 0, 1, 0, 0, 0, 0⟩],
         [⟨1, 7, "m1".data, "home".data, 30, 2, 60, "won".data, 0⟩],
         [⟨1, 7, "m1".data, "home".data, "correct".data, 0⟩], [], 2⟩) := by
  constructor
  · with_unfolding_all decide
  · exact rm_C3_idempotent "m1".data ⟨2, 0, 2, 0, false, "home".data, none⟩
      ⟨[⟨7, 100, 0, none, 0, 0, 0, 0, 0, 0, 0, 0, 0⟩],
       [⟨1, 7, "m1".data, "home".data, 30, 2, 60, "pending".data, 0⟩],
       [⟨1, 7, "m1".data, "home".data, "pending".data, 0⟩], [], 2⟩
      ⟨1, 1, 1, 0, 0⟩ _ (by with_unfolding_all decide)

end RMBot

namespace RMBot

/-! ## Claim C5: lost-wager settlement -/

/-- An `updUser` whose row function keeps `balance` and `wager_remaining`
leaves the balance/playthrough view of the whole `users` table unchanged. -/
lemma updUser_pair_frame (uid : ℕ) (f : User → User) (db : DB)
    (hf : ∀ u, (f u).balance = u.balance ∧ (f u).wager_remaining = u.wager_remaining) :
    (updUser uid f db).users.map (fun u => (u.balance, u.wager_remaining)) =
      db.users.map fun u => (u.balance, u.wager_remaining) := by
  simp only [updUser, List.map_map]
  refine List.map_eq_map_iff.mpr fun u _ => ?_
  by_cases h : u.user_id = uid
  · simp [h, Function.comp, (hf u).1, (hf u).2]
  · simp [h, Function.comp]

/-- After `updBet bid (status := st)`, every bet with that id has status
`st`. -/
lemma updBet_status (bid : ℕ) (st : List Char) (f : Bet → Bet) (db : DB)
    (hf : ∀ x, (f x).status = st ∧ (f x).bet_id = x.bet_id) :
    ∀ x ∈ (updBet bid f db).bets, x.bet_id = bid → x.status = st := by
  intro x hx hid
  simp only [updBet, List.mem_map] at hx
  obtain ⟨x₀, hx₀, hmap⟩ := hx
  by_cases h : x₀.bet_id = bid
  · rw [← hmap]; exact (by rw [if_pos h]; exact (hf x₀).1)
  · rw [if_neg h] at hmap
    subst hmap
    exact absurd hid h

/-- **C5 (amended).** A pending wager that resolves as lost is settled with
the user's balance (and `wager_remaining`) unchanged and its status set to
`'lost'` in every settlement path, but the paths disagree on the ledger:
the bot pass `settle_all_bets` appends exactly one zero-amount `bet_lose`
entry for the wager, while the API pass `settle_all_bets_advanced` and
`database.settle_bet` append no ledger entry at all for a lost wager. -/
theorem rm_C5_amended :
    (∀ (m : List Char) (stats : BotStats) (db : DB) (b : Bet),
      db.bets.filter (pendingBetP m) = [b] →
      check_bet_won b.bet_type stats = .lose →
      db.preds.filter (pendingPredP m) = [] →
      ∃ db', settle_all_bets m stats db = some (⟨1, 0, 1, 0, 0⟩, db') ∧
        db'.txs = db.txs ++ [⟨b.user_id, "bet_lose".data, 0, balanceOf b.user_id db,
          balanceOf b.user_id db, natStr b.bet_id⟩] ∧
        db'.users.map (fun u => (u.balance, u.wager_remaining)) =
          db.users.map (fun u => (u.balance, u.wager_remaining)) ∧
        (∀ x ∈ db'.bets, x.bet_id = b.bet_id → x.status = "lost".data) ∧
        db'.preds = db.preds) ∧
    (∀ (m : List Char) (stats : ApiStats) (db : DB) (b : Bet),
      db.bets.filter (pendingBetP m) = [b] →
      settle_bet_by_type b.bet_type stats = .lose →
      db.preds.filter (pendingPredP m) = [] →
      ∃ db', settle_all_bets_advanced m stats db = some (⟨1, 0, 0, 1, 0⟩, db') ∧
        db'.txs = db.txs ∧ db'.users = db.users ∧ db'.preds = db.preds ∧
        (∀ x ∈ db'.bets, x.bet_id = b.bet_id → x.status = "lost".data)) ∧
    (∀ (bid : ℕ) (result : List Char) (es : Option (List Char)) (db : DB) (bet : Bet),
      db.bets.find? (fun b => decide (b.bet_id = bid ∧ b.status = "pending".data))
        = some bet →
      "score_".data.isPrefixOf bet.bet_type = false →
      bet.bet_type ≠ result →
      ∃ db', settle_bet bid result es db = (true, db') ∧
        db'.txs = db.txs ∧
        db'.users.map (fun u => (u.balance, u.wager_remaining)) =
          db.users.map (fun u => (u.balance, u.wager_remaining)) ∧
        (∀ x ∈ db'.bets, x.bet_id = bid → x.status = "lost".data) ∧
        db'.preds = db.preds) := by
  refine ⟨?_, ?_, ?_⟩
  · intro m stats db b hf hcheck hpreds
    refine ⟨addTx ⟨b.user_id, "bet_lose".data, 0, balanceOf b.user_id db,
        balanceOf b.user_id db, natStr b.bet_id⟩
      (updUser b.user_id (fun u => { u with bets_lost := u.bets_lost + 1 })
        (updBet b.bet_id (fun x => { x with status := "lost".data }) db)),
      ?_, ?_, ?_, ?_, ?_⟩
    · unfold settle_all_bets
      rw [hf]
      simp only [botLoop, hcheck]
      have hpr : (addTx ⟨b.user_id, "bet_lose".data, 0, balanceOf b.user_id db,
          balanceOf b.user_id db, natStr b.bet_id⟩
          (updUser b.user_id (fun u => { u with bets_lost := u.bets_lost + 1 })
            (updBet b.bet_id (fun x => { x with status := "lost".data }) db))).preds
          = db.preds := rfl
      rw [hpr, hpreds]
      rfl
    · rfl
    · exact updUser_pair_frame _ _ _ fun u => ⟨rfl, rfl⟩
    · exact updBet_status _ _ _ _ fun x => ⟨rfl, rfl⟩
    · rfl
  · intro m stats db b hf hcheck hpreds
    refine ⟨updBet b.bet_id (fun x => { x with status := "lost".data }) db,
      ?_, rfl, rfl, rfl, ?_⟩
    · unfold settle_all_bets_advanced
      rw [hf]
      simp only [advLoop, hcheck]
      have hpr : (updBet b.bet_id (fun x => { x with status := "lost".data }) db).preds
          = db.preds := rfl
      rw [hpr, hpreds]
      rfl
    · exact updBet_status _ _ _ _ fun x => ⟨rfl, rfl⟩
  · intro bid result es db bet hfind hpf hne
    refine ⟨updBet bid (fun x => { x with status := "lost".data })
      (updUser bet.user_id
        (fun u => { u with bets_lost := u.bets_lost + 1,
                           bets_profit := u.bets_profit + -bet.amount }) db),
      ?_, rfl, ?_, ?_, rfl⟩
    · unfold settle_bet
      rw [hfind]
      simp only [hpf, Bool.false_eq_true, if_false, hne, decide_False]
    · exact updUser_pair_frame _ _ _ fun u => ⟨rfl, rfl⟩
    · exact updBet_status _ _ _ _ fun x => ⟨rfl, rfl⟩

/-- **C5 (witness).** The bot-path conjunct of `rm_C5_amended` applied to a
one-wager database: the pass appends exactly one zero-amount entry. -/
theorem rm_C5_witness :
    ∃ db', settle_all_bets "m1".data
        ⟨"away".data, 0, 2, 2, false, 0, 0, 0, 0, 0, 0, false, "away".data⟩
        ⟨[⟨7, 100, 40, none, 0, 0, 0, 0, 0, 0, 0, 0, 0⟩],
         [⟨1, 7, "m1".data, "home".data, 30, 19/10, 57, "pending".data, 0⟩],
         [], [], 2⟩ = some (⟨1, 0, 1, 0, 0⟩, db') ∧
      db'.txs = [] ++ [⟨7, "bet_lose".data, 0, 100, 100, natStr 1⟩] ∧
      db'.users.map (fun u => (u.balance, u.wager_remaining)) =
        ([⟨7, 100, 40, none, 0, 0, 0, 0, 0, 0, 0, 0, 0⟩] : List User).map
          (fun u => (u.balance, u.wager_remaining)) ∧
      (∀ x ∈ db'.bets, x.bet_id = 1 → x.status = "lost".data) ∧
      db'.preds = [] := by
  have h := rm_C5_amended.1 "m1".data
    ⟨"away".data, 0, 2, 2, false, 0, 0, 0, 0, 0, 0, false, "away".data⟩
    ⟨[⟨7, 100, 40, none, 0, 0, 0, 0, 0, 0, 0, 0, 0⟩],
     [⟨1, 7, "m1".data, "home".data, 30, 19/10, 57, "pending".data, 0⟩],
     [], [], 2⟩
    ⟨1, 7, "m1".data, "home".data, 30, 19/10, 57, "pending".data, 0⟩
    (by with_unfolding_all decide) (by with_unfolding_all decide) rfl
  obtain ⟨db', h1, h2, h3, h4, h5⟩ := h
  exact ⟨db', h1, h2, h3, h4, h5⟩

/-- **C5 (counterexample).** In the API settlement pass
`settle_all_bets_advanced` (src/api.py:5296-5299, a cited code site of the
claim), a lost wager is settled with **zero** ledger entries appended — the
transactions table stays empty — contradicting "still appends exactly one
zero-amount ledger entry". -/
theorem rm_C5_counterexample :
    (settle_all_bets_advanced "m1".data ⟨0, 2, 2, 0, false, "away".data, none⟩
        ⟨[⟨7, 100, 0, none, 0, 0, 0, 0, 0, 0, 0, 0, 0⟩],
         [⟨1, 7, "m1".data, "home".data, 30, 19/10, 57, "pending".data, 0⟩],
         [], [], 2⟩).map
      (fun rd => (rd.1, rd.2.bets.map Bet.status, rd.2.users.map User.balance,
        rd.2.txs.length)) =
      some (⟨1, 0, 0, 1, 0⟩, [ "lost".data ], [100], 0) := by
  with_unfolding_all decide

end RMBot

namespace RMBot

/-! ## Claim C7: prediction settlement -/

lemma find?_map_upd (uid : ℕ) (f : User → User)
    (hf : ∀ u, (f u).user_id = u.user_id) :
    ∀ (l : List User),
      (l.map fun u => if u.user_id = uid then f u else u).find?
        (fun u => u.user_id == uid) =
      (l.find? fun u => u.user_id == uid).map f := by
  intro l
  induction l with
  | nil => rfl
  | cons u t ih =>
    by_cases h : u.user_id = uid
    · simp [List.find?_cons, h, hf u]
    · simp [List.find?_cons, h, ih]

/-- `findUser` looks through an id-preserving `updUser` on the same id. -/
lemma findUser_updUser (uid : ℕ) (f : User → User) (db : DB)
    (hf : ∀ u, (f u).user_id = u.user_id) :
    findUser uid (updUser uid f db) = (findUser uid db).map f :=
  find?_map_upd uid f hf db.users

/-- After `updPred pid f` with `f` writing status `st`, every prediction
with that id has status `st`. -/
lemma updPred_status (pid : ℕ) (st : List Char) (f : Pred → Pred) (db : DB)
    (hf : ∀ x, (f x).status = st ∧ (f x).prediction_id = x.prediction_id) :
    ∀ x ∈ (updPred pid f db).preds, x.prediction_id = pid → x.status = st := by
  intro x hx hid
  simp only [updPred, List.mem_map] at hx
  obtain ⟨x₀, hx₀, hmap⟩ := hx
  by_cases h : x₀.prediction_id = pid
  · rw [← hmap]; exact (by rw [if_pos h]; exact (hf x₀).1)
  · rw [if_neg h] at hmap
    subst hmap
    exact absurd hid h

/-- `database.update_user_balance` when the user exists and the update keeps
the balance non-negative. -/
lemma update_user_balance_ok (uid : ℕ) (amount : ℤ) (txType ref : List Char)
    (aw : Bool) (db : DB) (u : User)
    (hu : findUser uid db = some u) (hb : ¬ u.balance + amount < 0) :
    update_user_balance uid amount txType ref aw db =
      (true, addTx ⟨uid, txType, amount, u.balance, u.balance + amount, ref⟩
        (updUser uid
          (fun x => { x with balance := u.balance + amount,
                             wager_remaining :=
                               (if aw ∧ amount > 0 then u.wager_remaining + amount
                                else u.wager_remaining) })
          db)) := by
  unfold update_user_balance
  rw [hu]
  simp only [if_neg hb]

/-- `database.update_user_balance` refuses an update that would make the
balance negative: `False` is returned and nothing is written. -/
lemma update_user_balance_refuse (uid : ℕ) (amount : ℤ) (txType ref : List Char)
    (aw : Bool) (db : DB) (u : User)
    (hu : findUser uid db = some u) (hb : u.balance + amount < 0) :
    update_user_balance uid amount txType ref aw db = (false, db) := by
  unfold update_user_balance
  rw [hu]
  simp only [if_pos hb]

/-- **C7 (amended).** Prediction settlement is unconditional on the
prediction side — it always reaches a terminal state (`correct` /
`incorrect`) from `stats.outcome` alone, never `Undetermined` — but the
balance deltas are not the claimed fixed reward/penalty pair in every path:
the API pass `settle_all_bets_advanced` credits `+10` for a correct
prediction and applies **no** debit for an incorrect one;
`database.settle_prediction` credits `+5` and debits `-10`, except that its
`-10` debit is silently skipped (no balance change, no ledger entry) when
the user's balance is below 10, while the prediction is still marked
`incorrect`. -/
theorem rm_C7_amended :
    (∀ (m : List Char) (stats : ApiStats) (db : DB) (p : Pred),
      db.preds.filter (pendingPredP m) = [p] →
      db.bets.filter (pendingBetP m) = [] →
      p.prediction = stats.outcome →
      ∃ db', settle_all_bets_advanced m stats db = some (⟨0, 1, 0, 0, 0⟩, db') ∧
        db'.users.map User.balance =
          db.users.map (fun u => if u.user_id = p.user_id then u.balance + 10
            else u.balance) ∧
        (∀ x ∈ db'.preds, x.prediction_id = p.prediction_id →
          x.status = "correct".data) ∧
        db'.txs = db.txs) ∧
    (∀ (m : List Char) (stats : ApiStats) (db : DB) (p : Pred),
      db.preds.filter (pendingPredP m) = [p] →
      db.bets.filter (pendingBetP m) = [] →
      p.prediction ≠ stats.outcome →
      ∃ db', settle_all_bets_advanced m stats db = some (⟨0, 1, 0, 0, 0⟩, db') ∧
        db'.users.map User.balance = db.users.map User.balance ∧
        (∀ x ∈ db'.preds, x.prediction_id = p.prediction_id →
          x.status = "incorrect".data) ∧
        db'.txs = db.txs) ∧
    (∀ (pid : ℕ) (actual : List Char) (db : DB) (p : Pred) (u : User),
      db.preds.find? (fun x => decide (x.prediction_id = pid ∧
        x.status = "pending".data)) = some p →
      findUser p.user_id db = some u →
      p.prediction = actual →
      ¬ u.balance + 5 < 0 →
      ∃ db', settle_prediction pid actual db = (true, db') ∧
        db'.users.map User.balance =
          db.users.map (fun x => if x.user_id = p.user_id then u.balance + 5
            else x.balance) ∧
        db'.txs = db.txs ++ [⟨p.user_id, "prediction_win".data, 5, u.balance,
          u.balance + 5, natStr pid⟩] ∧
        (∀ x ∈ db'.preds, x.prediction_id = pid → x.status = "correct".data)) ∧
    (∀ (pid : ℕ) (actual : List Char) (db : DB) (p : Pred) (u : User),
      db.preds.find? (fun x => decide (x.prediction_id = pid ∧
        x.status = "pending".data)) = some p →
      findUser p.user_id db = some u →
      p.prediction ≠ actual →
      ¬ u.balance + -10 < 0 →
      ∃ db', settle_prediction pid actual db = (true, db') ∧
        db'.users.map User.balance =
          db.users.map (fun x => if x.user_id = p.user_id then u.balance + -10
            else x.balance) ∧
        db'.txs = db.txs ++ [⟨p.user_id, "prediction_loss".data, -10, u.balance,
          u.balance + -10, natStr pid⟩] ∧
        (∀ x ∈ db'.preds, x.prediction_id = pid → x.status = "incorrect".data)) ∧
    (∀ (pid : ℕ) (actual : List Char) (db : DB) (p : Pred) (u : User),
      db.preds.find? (fun x => decide (x.prediction_id = pid ∧
        x.status = "pending".data)) = some p →
      findUser p.user_id db = some u →
      p.prediction ≠ actual →
      u.balance + -10 < 0 →
      ∃ db', settle_prediction pid actual db = (true, db') ∧
        db'.users.map User.balance = db.users.map User.balance ∧
        db'.txs = db.txs ∧
        (∀ x ∈ db'.preds, x.prediction_id = pid → x.status = "incorrect".data)) := by
  refine ⟨?_, ?_, ?_, ?_, ?_⟩
  · intro m stats db p hpf hbf hp
    refine ⟨updUser p.user_id
        (fun u => { u with balance := u.balance + 10,
                           predictions_correct := u.predictions_correct + 1 })
        (updPred p.prediction_id (fun x => { x with status := "correct".data }) db),
      ?_, ?_, ?_, rfl⟩
    · unfold settle_all_bets_advanced
      rw [hbf]
      show some (advPredLoop stats (db.preds.filter (pendingPredP m)) ⟨0, 0, 0, 0, 0⟩
        db) = _
      rw [hpf]
      simp only [advPredLoop, if_pos hp]
    · simp only [updUser, updPred, List.map_map]
      refine List.map_eq_map_iff.mpr fun u _ => ?_
      by_cases h : u.user_id = p.user_id
      · simp [h, Function.comp]
      · simp [h, Function.comp]
    · exact updPred_status _ _ _ _ fun x => ⟨rfl, rfl⟩
  · intro m stats db p hpf hbf hp
    refine ⟨updUser p.user_id
        (fun u => { u with predictions_incorrect := u.predictions_incorrect + 1 })
        (updPred p.prediction_id (fun x => { x with status := "incorrect".data }) db),
      ?_, ?_, ?_, rfl⟩
    · unfold settle_all_bets_advanced
      rw [hbf]
      show some (advPredLoop stats (db.preds.filter (pendingPredP m)) ⟨0, 0, 0, 0, 0⟩
        db) = _
      rw [hpf]
      simp only [advPredLoop, if_neg hp]
    · simp only [updUser, updPred, List.map_map]
      refine List.map_eq_map_iff.mpr fun u _ => ?_
      by_cases h : u.user_id = p.user_id
      · simp [h, Function.comp]
      · simp [h, Function.comp]
    · exact updPred_status _ _ _ _ fun x => ⟨rfl, rfl⟩
  · intro pid actual db p u hfind hu hp hb
    refine ⟨updPred pid
        (fun x => { x with status := "correct".data, points_change := 5 })
        (updUser p.user_id
          (fun w => { w with predictions_won := w.predictions_won + 1,
                             predictions_profit := w.predictions_profit + 5 })
          (addTx ⟨p.user_id, "prediction_win".data, 5, u.balance, u.balance + 5,
              natStr pid⟩
            (updUser p.user_id
              (fun x => { x with balance := u.balance + 5,
                                 wager_remaining := u.wager_remaining })
              db))),
      ?_, ?_, rfl, ?_⟩
    · unfold settle_prediction
      rw [hfind]
      dsimp only
      rw [if_pos hp,
        update_user_balance_ok p.user_id 5 "prediction_win".data (natStr pid) false db
          u hu hb]
      rfl
    · simp only [updPred, updUser, addTx, List.map_map]
      refine List.map_eq_map_iff.mpr fun x _ => ?_
      by_cases h : x.user_id = p.user_id
      · simp [h, Function.comp]
      · simp [h, Function.comp]
    · exact updPred_status _ _ _ _ fun x => ⟨rfl, rfl⟩
  · intro pid actual db p u hfind hu hp hb
    refine ⟨updPred pid
        (fun x => { x with status := "incorrect".data, points_change := -10 })
        (updUser p.user_id
          (fun w => { w with predictions_lost := w.predictions_lost + 1,
                             predictions_profit := w.predictions_profit - 10 })
          (addTx ⟨p.user_id, "prediction_loss".data, -10, u.balance, u.balance + -10,
              natStr pid⟩
            (updUser p.user_id
              (fun x => { x with balance := u.balance + -10,
                                 wager_remaining := u.wager_remaining })
              db))),
      ?_, ?_, rfl, ?_⟩
    · unfold settle_prediction
      rw [hfind]
      dsimp only
      rw [if_neg hp,
        update_user_balance_ok p.user_id (-10) "prediction_loss".data (natStr pid)
          false db u hu hb]
      rfl
    · simp only [updPred, updUser, addTx, List.map_map]
      refine List.map_eq_map_iff.mpr fun x _ => ?_
      by_cases h : x.user_id = p.user_id
      · simp [h, Function.comp]
      · simp [h, Function.comp]
    · exact updPred_status _ _ _ _ fun x => ⟨rfl, rfl⟩
  · intro pid actual db p u hfind hu hp hb
    refine ⟨updPred pid
        (fun x => { x with status := "incorrect".data, points_change := -10 })
        (updUser p.user_id
          (fun w => { w with predictions_lost := w.predictions_lost + 1,
                             predictions_profit := w.predictions_profit - 10 })
          db),
      ?_, ?_, rfl, ?_⟩
    · unfold settle_prediction
      rw [hfind]
      dsimp only
      rw [if_neg hp,
        update_user_balance_refuse p.user_id (-10) "prediction_loss".data (natStr pid)
          false db u hu hb]
    · simp only [updPred, updUser, List.map_map]
      refine List.map_eq_map_iff.mpr fun x _ => ?_
      by_cases h : x.user_id = p.user_id
      · simp [h, Function.comp]
      · simp [h, Function.comp]
    · exact updPred_status _ _ _ _ fun x => ⟨rfl, rfl⟩

end RMBot

namespace RMBot

/-- **C7 (witness).** Conjuncts 1 (API pass credits `+10`) and 5
(`database.settle_prediction` with balance `3 < 10`: the debit is skipped
but the prediction is still marked incorrect) of `rm_C7_amended`, applied to
concrete one-prediction databases. -/
theorem rm_C7_witness :
    (∃ db', settle_all_bets_advanced "m1".data ⟨2, 0, 2, 0, false, "home".data, none⟩
        ⟨[⟨7, 100, 0, none, 0, 0, 0, 0, 0, 0, 0, 0, 0⟩], [],
         [⟨1, 7, "m1".data, "home".data, "pending".data, 0⟩], [], 2⟩
        = some (⟨0, 1, 0, 0, 0⟩, db') ∧
      db'.users.map User.balance =
        ([⟨7, 100, 0, none, 0, 0, 0, 0, 0, 0, 0, 0, 0⟩] : List User).map
          (fun u => if u.user_id = 7 then u.balance + 10 else u.balance) ∧
      (∀ x ∈ db'.preds, x.prediction_id = 1 → x.status = "correct".data) ∧
      db'.txs = []) ∧
    (∃ db', settle_prediction 1 "away".data
        ⟨[⟨7, 3, 0, none, 0, 0, 0, 0, 0, 0, 0, 0, 0⟩], [],
         [⟨1, 7, "m1".data, "home".data, "pending".data, 0⟩], [], 2⟩
        = (true, db') ∧
      db'.users.map User.balance =
        ([⟨7, 3, 0, none, 0, 0, 0, 0, 0, 0, 0, 0, 0⟩] : List User).map User.balance ∧
      db'.txs = [] ∧
      (∀ x ∈ db'.preds, x.prediction_id = 1 → x.status = "incorrect".data)) := by
  constructor
  · exact rm_C7_amended.1 "m1".data ⟨2, 0, 2, 0, false, "home".data, none⟩
      ⟨[⟨7, 100, 0, none, 0, 0, 0, 0, 0, 0, 0, 0, 0⟩], [],
       [⟨1, 7, "m1".data, "home".data, "pending".data, 0⟩], [], 2⟩
      ⟨1, 7, "m1".data, "home".data, "pending".data, 0⟩
      (by with_unfolding_all decide) rfl (by with_unfolding_all decide)
  · exact rm_C7_amended.2.2.2.2 1 "away".data
      ⟨[⟨7, 3, 0, none, 0, 0, 0, 0, 0, 0, 0, 0, 0⟩], [],
       [⟨1, 7, "m1".data, "home".data, "pending".data, 0⟩], [], 2⟩
      ⟨1, 7, "m1".data, "home".data, "pending".data, 0⟩
      ⟨7, 3, 0, none, 0, 0, 0, 0, 0, 0, 0, 0, 0⟩
      (by with_unfolding_all decide) (by with_unfolding_all decide)
      (by with_unfolding_all decide) (by with_unfolding_all decide)

/-- **C7 (counterexample).** In the API pass `settle_all_bets_advanced`
(src/api.py:5303-5324, a cited code site of the claim), an incorrect
prediction is moved to `incorrect` with **no** balance change at all — no
fixed point penalty is debited, contradicting the claim. -/
theorem rm_C7_counterexample :
    (settle_all_bets_advanced "m1".data ⟨0, 2, 2, 0, false, "away".data, none⟩
        ⟨[⟨7, 100, 0, none, 0, 0, 0, 0, 0, 0, 0, 0, 0⟩], [],
         [⟨1, 7, "m1".data, "home".data, "pending".data, 0⟩], [], 2⟩).map
      (fun rd => (rd.1, rd.2.preds.map Pred.status, rd.2.users.map User.balance,
        rd.2.txs.length)) =
      some (⟨0, 1, 0, 0, 0⟩, [ "incorrect".data ], [100], 0) := by
  with_unfolding_all decide

end RMBot

namespace RMBot

/-! ## Claim C8: normalizer price bounds -/

/-- A dict assignment with an in-bounds value preserves the bound invariant. -/
lemma dictSet_bound {d : OddsDict} {k : List Char} {v : ℚ}
    (hd : ∀ kv ∈ d, 1 < kv.2 ∧ kv.2 ≤ 50) (hv : 1 < v ∧ v ≤ 50) :
    ∀ kv ∈ dictSet k v d, 1 < kv.2 ∧ kv.2 ≤ 50 := by
  intro kv hkv
  unfold dictSet at hkv
  by_cases h : (d.find? fun kv => kv.1 == k).isSome
  · rw [if_pos h] at hkv
    obtain ⟨x, hx, hmap⟩ := List.mem_map.mp hkv
    by_cases hk : (x.1 == k) = true
    · rw [if_pos hk] at hmap
      rw [← hmap]
      exact hv
    · rw [if_neg hk] at hmap
      rw [← hmap]
      exact hd x hx
  · rw [if_neg h] at hkv
    rcases List.mem_append.mp hkv with h1 | h1
    · exact hd kv h1
    · rw [List.mem_singleton.mp h1]
      exact hv

/-- The `continue`-style price guard implies the bound. -/
lemma guard_bound {p : ℚ} (h : ¬(p = 0 ∨ p ≤ 1 ∨ p > 50)) : 1 < p ∧ p ≤ 50 := by
  push_neg at h
  exact ⟨h.2.1, h.2.2⟩

/-- Folding a bound-preserving runner function preserves the invariant. -/
lemma foldl_pres {α : Type} (F : OddsDict → α → OddsDict)
    (hF : ∀ d r, (∀ kv ∈ d, 1 < kv.2 ∧ kv.2 ≤ 50) →
      ∀ kv ∈ F d r, 1 < kv.2 ∧ kv.2 ≤ 50) :
    ∀ (l : List α) (d), (∀ kv ∈ d, 1 < kv.2 ∧ kv.2 ≤ 50) →
      ∀ kv ∈ l.foldl F d, 1 < kv.2 ∧ kv.2 ≤ 50 := by
  intro l
  induction l with
  | nil => intro d h kv hkv; exact h kv hkv
  | cons a t ih => intro d h kv hkv; exact ih (F d a) (hF d a h) kv hkv

lemma leonRunnerOU_bound (px : List Char) (d : OddsDict) (r : RawRunner)
    (h : ∀ kv ∈ d, 1 < kv.2 ∧ kv.2 ≤ 50) :
    ∀ kv ∈ leonRunnerOU px d r, 1 < kv.2 ∧ kv.2 ≤ 50 := by
  intro kv hkv
  unfold leonRunnerOU at hkv
  dsimp only at hkv
  split_ifs at hkv with h1 h2 h3 h4
  · exact h kv hkv
  · exact h kv hkv
  · exact dictSet_bound h (guard_bound h2) kv hkv
  · exact dictSet_bound h (guard_bound h2) kv hkv
  · exact h kv hkv

lemma leonRunner12_bound (p1 p2 : List Char) (d : OddsDict) (r : RawRunner)
    (h : ∀ kv ∈ d, 1 < kv.2 ∧ kv.2 ≤ 50) :
    ∀ kv ∈ leonRunner12 p1 p2 d r, 1 < kv.2 ∧ kv.2 ≤ 50 := by
  intro kv hkv
  unfold leonRunner12 at hkv
  dsimp only at hkv
  split_ifs at hkv with h1 h2 h3 h4
  · exact h kv hkv
  · exact h kv hkv
  · exact dictSet_bound h (guard_bound h2) kv hkv
  · exact dictSet_bound h (guard_bound h2) kv hkv
  · exact h kv hkv

lemma leonRunnerScore_bound (d : OddsDict) (r : RawRunner)
    (h : ∀ kv ∈ d, 1 < kv.2 ∧ kv.2 ≤ 50) :
    ∀ kv ∈ leonRunnerScore d r, 1 < kv.2 ∧ kv.2 ≤ 50 := by
  intro kv hkv
  unfold leonRunnerScore at hkv
  dsimp only at hkv
  split_ifs at hkv with h1 h2 h3
  · exact h kv hkv
  · exact h kv hkv
  · split at hkv
    · split_ifs at hkv with h4
      · exact dictSet_bound h (guard_bound h2) kv hkv
      · exact h kv hkv
    · exact h kv hkv
  · exact h kv hkv

lemma leonRunnerEvenOdd_bound (d : OddsDict) (r : RawRunner)
    (h : ∀ kv ∈ d, 1 < kv.2 ∧ kv.2 ≤ 50) :
    ∀ kv ∈ leonRunnerEvenOdd d r, 1 < kv.2 ∧ kv.2 ≤ 50 := by
  intro kv hkv
  unfold leonRunnerEvenOdd at hkv
  dsimp only at hkv
  split_ifs at hkv with h1 h2 h3 h4
  · exact h kv hkv
  · exact h kv hkv
  · exact dictSet_bound h (guard_bound h2) kv hkv
  · exact dictSet_bound h (guard_bound h2) kv hkv
  · exact h kv hkv

lemma leonRunnerFixed_bound (pick : RawRunner → Option (List Char)) (d : OddsDict)
    (r : RawRunner) (h : ∀ kv ∈ d, 1 < kv.2 ∧ kv.2 ≤ 50) :
    ∀ kv ∈ leonRunnerFixed pick d r, 1 < kv.2 ∧ kv.2 ≤ 50 := by
  intro kv hkv
  unfold leonRunnerFixed at hkv
  dsimp only at hkv
  split_ifs at hkv with h1 h2
  · exact h kv hkv
  · split at hkv
    · exact dictSet_bound h ⟨h2.2.1, h2.2.2⟩ kv hkv
    · exact h kv hkv
  · exact h kv hkv

lemma leonRunnerPenalty_bound (d : OddsDict) (r : RawRunner)
    (h : ∀ kv ∈ d, 1 < kv.2 ∧ kv.2 ≤ 50) :
    ∀ kv ∈ leonRunnerPenalty d r, 1 < kv.2 ∧ kv.2 ≤ 50 := by
  intro kv hkv
  unfold leonRunnerPenalty at hkv
  dsimp only at hkv
  split_ifs at hkv with h1 h2 h3 h4
  · exact h kv hkv
  · exact h kv hkv
  · exact dictSet_bound h (guard_bound h2) kv hkv
  · exact dictSet_bound h (guard_bound h2) kv hkv
  · exact h kv hkv

/-- Membership in the first component of an if-then-else of states. -/
lemma mem_ite_fst {c : Prop} [Decidable c] {a b : OddsDict × ℕ} {kv : List Char × ℚ}
    (h : kv ∈ (if c then a else b).1) : kv ∈ a.1 ∨ kv ∈ b.1 := by
  by_cases hc : c
  · rw [if_pos hc] at h; exact Or.inl h
  · rw [if_neg hc] at h; exact Or.inr h

/-- One market step preserves the price-bound invariant. -/
lemma leonStep_bound (st : OddsDict × ℕ) (m : RawMarket)
    (h : ∀ kv ∈ st.1, 1 < kv.2 ∧ kv.2 ≤ 50) :
    ∀ kv ∈ (leonStep st m).1, 1 < kv.2 ∧ kv.2 ≤ 50 := by
  intro kv hkv
  unfold leonStep leonOU leon12 at hkv
  -- peel the `elif` chain branch by branch
  rcases mem_ite_fst hkv with hkv | hkv
  · exact h kv hkv
  rcases mem_ite_fst hkv with hkv | hkv
  · exact foldl_pres _ leonRunnerScore_bound m.runners st.1 h kv hkv
  rcases mem_ite_fst hkv with hkv | hkv
  · exact foldl_pres _ leonRunnerEvenOdd_bound m.runners st.1 h kv hkv
  rcases mem_ite_fst hkv with hkv | hkv
  · exact h kv hkv
  rcases mem_ite_fst hkv with hkv | hkv
  · exact foldl_pres _ (leonRunnerFixed_bound _) m.runners st.1 h kv hkv
  rcases mem_ite_fst hkv with hkv | hkv
  · exact foldl_pres _ (leonRunnerFixed_bound _) m.runners st.1 h kv hkv
  rcases mem_ite_fst hkv with hkv | hkv
  · exact foldl_pres _ (leonRunnerFixed_bound _) m.runners st.1 h kv hkv
  rcases mem_ite_fst hkv with hkv | hkv
  · exact foldl_pres _ (leonRunnerFixed_bound _) m.runners st.1 h kv hkv
  rcases mem_ite_fst hkv with hkv | hkv
  · exact foldl_pres _ (leonRunnerFixed_bound _) m.runners st.1 h kv hkv
  rcases mem_ite_fst hkv with hkv | hkv
  · exact foldl_pres _ leonRunnerPenalty_bound m.runners st.1 h kv hkv
  -- угловые
  rcases mem_ite_fst hkv with hkv | hkv
  · rcases mem_ite_fst hkv with hkv | hkv
    · exact h kv hkv
    rcases mem_ite_fst hkv with hkv | hkv
    · exact foldl_pres _ (leonRunnerOU_bound _) m.runners st.1 h kv hkv
    rcases mem_ite_fst hkv with hkv | hkv
    · exact foldl_pres _ (leonRunnerOU_bound _) m.runners st.1 h kv hkv
    exact foldl_pres _ (leonRunnerOU_bound _) m.runners st.1 h kv hkv
  -- карточки
  rcases mem_ite_fst hkv with hkv | hkv
  · rcases mem_ite_fst hkv with hkv | hkv
    · exact h kv hkv
    rcases mem_ite_fst hkv with hkv | hkv
    · exact foldl_pres _ (leonRunnerOU_bound _) m.runners st.1 h kv hkv
    rcases mem_ite_fst hkv with hkv | hkv
    · exact foldl_pres _ (leonRunnerOU_bound _) m.runners st.1 h kv hkv
    exact foldl_pres _ (leonRunnerOU_bound _) m.runners st.1 h kv hkv
  -- фора
  rcases mem_ite_fst hkv with hkv | hkv
  · exact foldl_pres _ (leonRunner12_bound _ _) m.runners st.1 h kv hkv
  rcases mem_ite_fst hkv with hkv | hkv
  · exact foldl_pres _ (leonRunnerOU_bound _) m.runners st.1 h kv hkv
  rcases mem_ite_fst hkv with hkv | hkv
  · exact foldl_pres _ (leonRunnerOU_bound _) m.runners st.1 h kv hkv
  rcases mem_ite_fst hkv with hkv | hkv
  · exact foldl_pres _ (leonRunnerOU_bound _) m.runners st.1 h kv hkv
  exact h kv hkv

lemma leonSteps_bound :
    ∀ (ms : List RawMarket) (st : OddsDict × ℕ),
      (∀ kv ∈ st.1, 1 < kv.2 ∧ kv.2 ≤ 50) →
      ∀ kv ∈ (ms.foldl leonStep st).1, 1 < kv.2 ∧ kv.2 ≤ 50 := by
  intro ms
  induction ms with
  | nil => intro st h kv hkv; exact h kv hkv
  | cons a t ih => intro st h kv hkv; exact ih (leonStep st a) (leonStep_bound st a h) kv hkv

/-- **C8 (confirmed).** Price-bound invariant of the Normalizer: whatever the
raw market list — closed runners, missing, zero, negative or huge prices —
every price stored in the odds mapping produced by `_parse_leon_markets`
satisfies `1 < price ≤ 50`; out-of-range, closed and priceless runners
contribute no key. -/
theorem rm_C8_price_bounds :
    ∀ (markets : List RawMarket) (k : List Char) (v : ℚ),
      (k, v) ∈ (parse_leon_markets markets).1 → 1 < v ∧ v ≤ 50 := by
  intro ms k v hkv
  exact leonSteps_bound ms ([], 0) (by intro kv hkv; cases hkv) (k, v) hkv

/-- **C8 (witness).** `rm_C8_price_bounds` applied to a concrete market list
and the key it produces. -/
theorem rm_C8_witness :
    ("home".data, (37/20 : ℚ)) ∈
      (parse_leon_markets [⟨"Исход 1x2".data, true,
        [⟨"1".data, true, some (37/20)⟩, ⟨"X".data, true, some 60⟩,
         ⟨"2".data, false, some 2⟩]⟩]).1 ∧
    1 < (37/20 : ℚ) ∧ (37/20 : ℚ) ≤ 50 :=
  ⟨by with_unfolding_all decide,
   rm_C8_price_bounds [⟨"Исход 1x2".data, true,
      [⟨"1".data, true, some (37/20)⟩, ⟨"X".data, true, some 60⟩,
       ⟨"2".data, false, some 2⟩]⟩] "home".data (37/20)
     (by with_unfolding_all decide)⟩

end RMBot

namespace RMBot

/-! ## Claim C9: catalog suppression, caps, and non-empty markets -/

/-- Elements produced by a fold either were in the accumulator or satisfy
the step's production invariant. -/
lemma foldl_mem_inv {α β : Type} (step : List β → α → List β) (P : β → Prop) :
    ∀ (l : List α), (∀ acc a, a ∈ l → ∀ x ∈ step acc a, x ∈ acc ∨ P x) →
      ∀ (acc : List β), ∀ x ∈ l.foldl step acc, x ∈ acc ∨ P x := by
  intro l
  induction l with
  | nil => intro _ acc x hx; exact Or.inl hx
  | cons a t ih =>
    intro hstep acc x hx
    rcases ih (fun acc b hb => hstep acc b (List.mem_cons_of_mem a hb))
      (step acc a) x hx with hmem | hP
    · exact hstep acc a (List.mem_cons_self a t) x hmem
    · exact Or.inr hP

/-- Every line string surviving `_collect`'s first phase parses and passes
both the cap and the already-passed-line guards. -/
lemma collectLines_bound (odds : OddsDict) (px : List Char) (ml : Option ℚ)
    (cv : ℤ) :
    ∀ line ∈ collectLines odds px ml cv,
      ∃ q, parseDec line = some q ∧ ¬(maxTruthy ml = true ∧ q > ml.getD 0) ∧
        ¬(cv > 0 ∧ q < (cv : ℚ)) := by
  intro line hline
  unfold collectLines at hline
  have H := foldl_mem_inv _
    (fun line => ∃ q, parseDec line = some q ∧
      ¬(maxTruthy ml = true ∧ q > ml.getD 0) ∧ ¬(cv > 0 ∧ q < (cv : ℚ)))
    odds ?_ [] line hline
  · rcases H with h | h
    · cases h
    · exact h
  · intro acc kv _ x hx
    dsimp only at hx
    split at hx
    · split at hx
      · exact Or.inl hx
      · rename_i v hparse
        split_ifs at hx with g1 g2 g3
        · exact Or.inl hx
        · exact Or.inl hx
        · exact Or.inl hx
        · rcases List.mem_append.mp hx with h | h
          · exact Or.inl h
          · rw [List.mem_singleton.mp h]
            exact Or.inr ⟨v, hparse, g1, g2⟩
    · exact Or.inl hx

/-- Every option emitted by `_collect`'s second phase carries the parsed
value of one of the surviving line strings. -/
lemma collectBets_line (odds : OddsDict) (px : List Char)
    (lines : List (List Char)) :
    ∀ b ∈ collectBets odds px lines,
      ∃ line ∈ lines, b.line = some (lineVal line) := by
  intro b hb
  unfold collectBets at hb
  have H := foldl_mem_inv _
    (fun b => ∃ line ∈ lines, b.line = some (lineVal line)) lines ?_ [] b hb
  · rcases H with h | h
    · cases h
    · exact h
  · intro acc a ha x hx
    dsimp only at hx
    split at hx
    · exact Or.inl hx
    · split at hx
      · rcases List.mem_append.mp hx with h | h
        · exact Or.inl h
        · rw [List.mem_singleton.mp h]
          exact Or.inr ⟨a, ha, rfl⟩
      · rcases List.mem_append.mp hx with h | h
        · rcases List.mem_append.mp h with h2 | h2
          · exact Or.inl h2
          · rw [List.mem_singleton.mp h2]
            exact Or.inr ⟨a, ha, rfl⟩
        · rw [List.mem_singleton.mp h]
          exact Or.inr ⟨a, ha, rfl⟩

/-- `_collect` with a non-zero cap `M` and current tally `cv`: every emitted
option has a line value at most `M` and — when the tally is positive — at
least the tally. -/
lemma buildCollect_cap (odds : OddsDict) (px : List Char) (M : ℚ) (cv : ℤ)
    (hM : M ≠ 0) :
    ∀ b ∈ buildCollect odds px (some M) cv,
      ∃ q, b.line = some q ∧ q ≤ M ∧ (cv > 0 → (cv : ℚ) ≤ q) := by
  intro b hb
  unfold buildCollect at hb
  obtain ⟨line, hmem, hq⟩ := collectBets_line _ _ _ b hb
  rw [List.mem_insertionSort] at hmem
  obtain ⟨q, hparse, hg1, hg2⟩ := collectLines_bound _ _ _ _ line hmem
  refine ⟨q, ?_, ?_, ?_⟩
  · rw [hq]
    unfold lineVal
    rw [hparse]
    rfl
  · by_contra hlt
    exact hg1 ⟨by simp [maxTruthy, hM], lt_of_not_le hlt⟩
  · intro hcv
    by_contra hlt
    exact hg2 ⟨hcv, lt_of_not_le hlt⟩

/-- Membership in a conditionally-emitted singleton market. -/
lemma c9_mem_guard {c : Prop} [Decidable c] {x mk : BMarket}
    (h : mk ∈ if c then [x] else []) : mk = x ∧ c := by
  by_cases hc : c
  · rw [if_pos hc] at h
    exact ⟨List.mem_singleton.mp h, hc⟩
  · rw [if_neg hc] at h
    cases h

set_option maxRecDepth 8000 in
/-- **C9 (confirmed).** The Market Catalog Builder (1) never emits a market
whose option list is empty; (2) in `_collect` with a non-zero cap, every
emitted over/under option's line is at most the cap and — when the current
tally is positive — at least the tally (the builder instantiates the caps
as 10.5 total goals, 20 corners, 12 cards, 7.5 per-team goals and the
tallies from the current score); and (3) concretely, at score 2:1 the 1.5
goal line is suppressed, an 11.5 goal line is capped away, over-cap corner
(21), card (12.5) and per-team (8.5) lines are capped away, a line below a
team's tally is suppressed, and the resulting empty markets are omitted
while `total_over_3.5`/`total_under_3.5` survive. -/
theorem rm_C9_catalog :
    (∀ (odds : OddsDict) (home_team away_team score : List Char)
        (mkts : List BMarket),
      build_live_markets odds home_team away_team score = some mkts →
      ∀ mk ∈ mkts, mk.bets ≠ []) ∧
    (∀ (odds : OddsDict) (px : List Char) (M : ℚ) (cv : ℤ), M ≠ 0 →
      ∀ b ∈ buildCollect odds px (some M) cv,
        ∃ q, b.line = some q ∧ q ≤ M ∧ (cv > 0 → (cv : ℚ) ≤ q)) ∧
    build_live_markets
      [("total_over_1.5".data, 2), ("total_under_1.5".data, 9/5),
       ("total_over_3.5".data, 11/5), ("total_under_3.5".data, 33/20),
       ("total_over_11.5".data, 3), ("corners_over_21".data, 2),
       ("cards_over_12.5".data, 2), ("home_over_8.5".data, 2),
       ("away_over_0.5".data, 3/2)]
      [] [] "2:1".data =
      some [⟨"total_goals".data, "Тотал голов".data,
        [⟨"total_over_3.5".data, "Б 3.5".data, 11/5, some (7/2)⟩,
         ⟨"total_under_3.5".data, "М 3.5".data, 33/20, some (7/2)⟩]⟩] := by
  refine ⟨?_, ?_, ?_⟩
  · intro odds home_team away_team score mkts hbuild mk hmk
    unfold build_live_markets at hbuild
    cases hH : buildHandicap odds with
    | none => rw [hH] at hbuild; cases hbuild
    | some hb =>
      rw [hH] at hbuild
      simp only [Option.some.injEq] at hbuild
      subst hbuild
      simp only [List.mem_append] at hmk
      rcases hmk with
        ((((((((((((((((h | h) | h) | h) | h) | h) | h) | h) | h) | h) | h) |
          h) | h) | h) | h) | h) | h) | h <;>
        obtain ⟨rfl, hc⟩ := c9_mem_guard h <;>
        first
          | exact hc
          | simp [fixedBets]
  · intro odds px M cv hM
    exact buildCollect_cap odds px M cv hM
  · with_unfolding_all decide

set_option maxRecDepth 8000 in
/-- **C9 (witness).** Conjunct (a) of `rm_C9_catalog` applied to the
concrete odds feed of its conjunct (c): the single emitted market has a
nonempty selection list. -/
theorem rm_C9_witness :
    (⟨"total_goals".data, "Тотал голов".data,
      [⟨"total_over_3.5".data, "Б 3.5".data, 11/5, some (7/2)⟩,
       ⟨"total_under_3.5".data, "М 3.5".data, 33/20, some (7/2)⟩]⟩ :
      BMarket).bets ≠ [] :=
  rm_C9_catalog.1
    [("total_over_1.5".data, 2), ("total_under_1.5".data, 9/5),
     ("total_over_3.5".data, 11/5), ("total_under_3.5".data, 33/20),
     ("total_over_11.5".data, 3), ("corners_over_21".data, 2),
     ("cards_over_12.5".data, 2), ("home_over_8.5".data, 2),
     ("away_over_0.5".data, 3/2)]
    [] [] "2:1".data
    [⟨"total_goals".data, "Тотал голов".data,
      [⟨"total_over_3.5".data, "Б 3.5".data, 11/5, some (7/2)⟩,
       ⟨"total_under_3.5".data, "М 3.5".data, 33/20, some (7/2)⟩]⟩]
    (by with_unfolding_all decide)
    ⟨"total_goals".data, "Тотал голов".data,
      [⟨"total_over_3.5".data, "Б 3.5".data, 11/5, some (7/2)⟩,
       ⟨"total_under_3.5".data, "М 3.5".data, 33/20, some (7/2)⟩]⟩
    (List.Mem.head _)

end RMBot

namespace RMBot

/-! ## Claim C10: normalizer keys with no resolver branch -/

/-- **C10 (confirmed).** The Normalizer itself produces the keys
`home_over_{line}` / `away_over_{line}` (per-team totals), `cards_over_{line}`
/ `cards_under_{line}`, `total_even` / `total_odd` and `penalty_yes` /
`penalty_no` (first conjunct, on a concrete bookmaker payload); the API-side
resolver `settle_bet_by_type` has no branch for any of them — it expects
`home_total_over_{line}` and has no cards, odd/even or penalty case — so
each falls through to the terminal `return False` and resolves `Lost` for
**every** possible `MatchStatistics` (second conjunct); consequently
`settle_all_bets_advanced` settles such a wager as `lost` even when the
statistics satisfy it (third conjunct: a `total_even` wager with an even
goal total). -/
theorem rm_C10_mismatched_keys :
    (parse_leon_markets
      [⟨"Тотал хозяев".data, true, [⟨"Больше (2.5)".data, true, some 2⟩]⟩,
       ⟨"Тотал гостей".data, true, [⟨"Больше (1.5)".data, true, some 2⟩]⟩,
       ⟨"Тотал карточек".data, true,
         [⟨"Больше (3.5)".data, true, some 2⟩, ⟨"Меньше (3.5)".data, true, some (17/10)⟩]⟩,
       ⟨"Чет/Нечет".data, true,
         [⟨"Чет".data, true, some (19/10)⟩, ⟨"Нечет".data, true, some (37/20)⟩]⟩,
       ⟨"Будет ли пенальти".data, true,
         [⟨"Да".data, true, some 3⟩, ⟨"Нет".data, true, some (13/10)⟩]⟩]).1 =
      [("home_over_2.5".data, 2), ("away_over_1.5".data, 2),
       ("cards_over_3.5".data, 2), ("cards_under_3.5".data, 17/10),
       ("total_even".data, 19/10), ("total_odd".data, 37/20),
       ("penalty_yes".data, 3), ("penalty_no".data, 13/10)] ∧
    (∀ s : ApiStats,
      settle_bet_by_type "home_over_2.5".data s = .lose ∧
      settle_bet_by_type "away_over_1.5".data s = .lose ∧
      settle_bet_by_type "cards_over_3.5".data s = .lose ∧
      settle_bet_by_type "cards_under_3.5".data s = .lose ∧
      settle_bet_by_type "total_even".data s = .lose ∧
      settle_bet_by_type "total_odd".data s = .lose ∧
      settle_bet_by_type "penalty_yes".data s = .lose ∧
      settle_bet_by_type "penalty_no".data s = .lose) ∧
    (settle_all_bets_advanced "m1".data ⟨1, 1, 2, 0, true, "draw".data, none⟩
        ⟨[⟨7, 100, 0, none, 0, 0, 0, 0, 0, 0, 0, 0, 0⟩],
         [⟨1, 7, "m1".data, "total_even".data, 30, 19/10, 57, "pending".data, 0⟩],
         [], [], 2⟩).map
      (fun rd => (rd.1, rd.2.bets.map Bet.status, rd.2.users.map User.balance)) =
      some (⟨1, 0, 0, 1, 0⟩, [ "lost".data ], [100]) := by
  refine ⟨by with_unfolding_all decide, fun s => ?_, by with_unfolding_all decide⟩
  refine ⟨?_, ?_, ?_, ?_, ?_, ?_, ?_, ?_⟩ <;>
    simp [settle_bet_by_type, List.isPrefixOf]

end RMBot


namespace RMBot

/-! ## Claim C4: wager placement -/

/-- A successful `place_bet` call, expressed with `placeBetResultDB`. -/
lemma place_bet_ok (uid : ℕ) (mid bt : List Char) (amt : ℤ) (odds : ℚ)
    (db : DB) (u : User) (hu : findUser uid db = some u)
    (hblt : ¬ u.balance < amt) :
    place_bet uid mid bt amt odds db =
      (some db.next_bet_id, placeBetResultDB uid mid bt amt odds u db) := by
  unfold place_bet
  rw [hu]
  dsimp only
  rw [if_neg hblt]
  rfl

/-- `findUser` after `placeBetResultDB`. -/
lemma findUser_placeBetResultDB (uid : ℕ) (mid bt : List Char) (amt : ℤ)
    (odds : ℚ) (db : DB) (u : User) (hu : findUser uid db = some u) :
    findUser uid (placeBetResultDB uid mid bt amt odds u db) =
      some { u with balance := u.balance - amt,
                    wager_remaining := max 0 (u.wager_remaining - amt),
                    bets_total := u.bets_total + 1 } := by
  show findUser uid (updUser uid _ db) = _
  rw [findUser_updUser uid
    (fun x => { x with balance := u.balance - amt,
                       wager_remaining := max 0 (u.wager_remaining - amt),
                       bets_total := x.bets_total + 1 })
    db (fun x => rfl), hu]
  rfl

/-- The user's bet rows after `placeBetResultDB`: the previous ones plus the
new pending bet. -/
lemma filter_placeBetResultDB (uid : ℕ) (mid bt : List Char) (amt : ℤ)
    (odds : ℚ) (db : DB) (u : User) :
    (placeBetResultDB uid mid bt amt odds u db).bets.filter
        (fun b => decide (b.user_id = uid)) =
      db.bets.filter (fun b => decide (b.user_id = uid)) ++
        [⟨db.next_bet_id, uid, mid, bt, amt, odds, pyInt ((amt : ℚ) * odds),
          "pending".data, 0⟩] := by
  show (db.bets ++ [(⟨db.next_bet_id, uid, mid, bt, amt, odds,
      pyInt ((amt : ℚ) * odds), "pending".data, 0⟩ : Bet)]).filter
      (fun b => decide (b.user_id = uid)) = _
  rw [List.filter_append]
  simp

/-- `process_referral_bonus` is a no-op for a user without a referrer. -/
lemma process_referral_none (uid : ℕ) (db : DB) (w : User)
    (hu : findUser uid db = some w) (href : w.referred_by = none) :
    process_referral_bonus uid db = db := by
  unfold process_referral_bonus
  rw [hu]
  dsimp only
  rw [href]

/-- **C4 (amended).** `place_bet_endpoint`: (a) a stake above the user's
balance is rejected with no mutation; (b) with the earlier guards passed, a
suspended odds feed is rejected as market-closed with no mutation; (c) on
the success path — provided the bettor is not a referred user placing their
first-ever wager — the engine debits exactly the stake, lowers
`wager_remaining` by exactly `min(wager_remaining, stake)` (never below 0),
inserts one `'pending'` wager priced at the selected odds with
`potential_payout = int(stake*price)` (`= floor(stake*price)` whenever the
price is non-negative), and appends exactly one ledger entry of amount
`-stake`.  (On a referred user's first wager the referral-bonus path
additionally credits +25 to bettor and referrer with extra ledger entries —
see the counterexample.) -/
theorem rm_C4_place_contract :
    (∀ (uid : ℕ) (mid bt : List Char) (amt : ℤ) (mc : ℕ) (bc : Bool)
        (l1 l2 : Option LeonData) (db : DB) (u : User),
      findUser uid db = some u → amt > u.balance →
      ∃ e, place_bet_endpoint uid mid bt amt mc bc l1 l2 db = (.error e, db)) ∧
    (∀ (uid : ℕ) (mid bt : List Char) (amt : ℤ) (mc : ℕ) (bc : Bool)
        (l1 l2 : Option LeonData) (db : DB) (u : User) (d : LeonData),
      findUser uid db = some u → ¬ amt ≤ 0 → ¬ amt > u.balance → mc ≠ 0 →
      bc = false → (leonSelect l1 l2).1 = some d → d.bets_suspended = true →
      place_bet_endpoint uid mid bt amt mc bc l1 l2 db = (.error .suspended, db)) ∧
    (∀ (uid : ℕ) (mid bt : List Char) (amt : ℤ) (mc : ℕ) (bc : Bool)
        (l1 l2 : Option LeonData) (db : DB) (u : User) (odds : ℚ),
      findUser uid db = some u → ¬ amt ≤ 0 → ¬ amt > u.balance → mc ≠ 0 →
      bc = false →
      (match (leonSelect l1 l2).1 with
       | some d => d.bets_suspended
       | none => false) = false →
      endpointOdds bt (leonSelect l1 l2).2 = some odds →
      (db.bets.filter (fun b => decide (b.user_id = uid)) ≠ [] ∨
        u.referred_by = none) →
      ∃ db', place_bet_endpoint uid mid bt amt mc bc l1 l2 db =
          (.ok ⟨db.next_bet_id, amt, odds, pyInt ((amt : ℚ) * odds)⟩, db') ∧
        db'.bets = db.bets ++ [⟨db.next_bet_id, uid, mid, bt, amt, odds,
          pyInt ((amt : ℚ) * odds), "pending".data, 0⟩] ∧
        db'.txs = db.txs ++ [⟨uid, "bet".data, -amt, u.balance, u.balance - amt,
          natStr db.next_bet_id⟩] ∧
        db'.users.map (fun x => (x.balance, x.wager_remaining)) =
          db.users.map (fun x => if x.user_id = uid then
            (u.balance - amt, u.wager_remaining - min u.wager_remaining amt)
            else (x.balance, x.wager_remaining)) ∧
        db'.preds = db.preds ∧
        (0 ≤ odds → pyInt ((amt : ℚ) * odds) = ⌊(amt : ℚ) * odds⌋)) := by
  refine ⟨?_, ?_, ?_⟩
  · intro uid mid bt amt mc bc l1 l2 db u hu hgt
    unfold place_bet_endpoint
    rw [hu]
    dsimp only
    by_cases h0 : amt ≤ 0
    · exact ⟨.amountNonpositive, by rw [if_pos h0]⟩
    · exact ⟨.insufficientBalance, by rw [if_neg h0, if_pos hgt]⟩
  · intro uid mid bt amt mc bc l1 l2 db u d hu h0 hb hmc hbc hsel hsusp
    unfold place_bet_endpoint
    rw [hu]
    dsimp only
    rw [if_neg h0, if_neg hb, if_neg hmc, if_neg (by simp [hbc]),
      if_pos (by rw [hsel]; exact hsusp)]
  · intro uid mid bt amt mc bc l1 l2 db u odds hu h0 hb hmc hbc hsusp hod hnr
    have hblt : ¬ u.balance < amt := by omega
    refine ⟨placeBetResultDB uid mid bt amt odds u db, ?_, rfl, rfl, ?_, rfl, ?_⟩
    · unfold place_bet_endpoint
      rw [hu]
      dsimp only
      rw [if_neg h0, if_neg hb, if_neg hmc, if_neg (by simp [hbc]),
        if_neg (by simp [hsusp]), hod]
      dsimp only
      rw [place_bet_ok uid mid bt amt odds db u hu hblt]
      dsimp only
      rw [filter_placeBetResultDB]
      rcases hnr with hne | hrefnone
      · rw [if_neg ?_]
        rw [List.length_append]
        intro hlen
        simp only [List.length_singleton] at hlen
        have : db.bets.filter (fun b => decide (b.user_id = uid)) = [] :=
          List.length_eq_zero.mp (by omega)
        exact hne this
      · by_cases hfe : db.bets.filter (fun b => decide (b.user_id = uid)) = []
        · rw [if_pos (by rw [hfe]; rfl),
            process_referral_none uid _ _
              (findUser_placeBetResultDB uid mid bt amt odds db u hu)
              (by exact hrefnone)]
        · rw [if_neg ?_]
          rw [List.length_append]
          intro hlen
          simp only [List.length_singleton] at hlen
          exact hfe (List.length_eq_zero.mp (by omega))
    · simp only [placeBetResultDB, updUser, addTx, List.map_map]
      refine List.map_eq_map_iff.mpr fun x _ => ?_
      by_cases h : x.user_id = uid
      · simp only [Function.comp, if_pos h]
        refine Prod.ext rfl ?_
        show max 0 (u.wager_remaining - amt) =
          u.wager_remaining - min u.wager_remaining amt
        omega
      · simp [Function.comp, h]
    · intro hodds
      unfold pyInt
      rw [if_pos (mul_nonneg (by exact_mod_cast (by omega : (0 : ℤ) ≤ amt)) hodds)]

end RMBot

namespace RMBot

/-- **C4 (witness).** Conjuncts (b) and (c) of `rm_C4_place_contract`
applied to a concrete two-row database (no referrer): a suspended feed is
rejected unchanged, and a successful 40-point wager at odds 37/20 produces
exactly the claimed state. -/
theorem rm_C4_witness :
    place_bet_endpoint 1 "m1".data "home".data 40 1 false
      (some ⟨[("home".data, 37/20)], true⟩) none
      ⟨[⟨1, 100, 30, none, 0, 0, 0, 0, 0, 0, 0, 0, 0⟩], [], [], [], 1⟩ =
      (.error .suspended,
        ⟨[⟨1, 100, 30, none, 0, 0, 0, 0, 0, 0, 0, 0, 0⟩], [], [], [], 1⟩) ∧
    (∃ db', place_bet_endpoint 1 "m1".data "home".data 40 1 false
        (some ⟨[("home".data, 37/20)], false⟩) none
        ⟨[⟨1, 100, 30, none, 0, 0, 0, 0, 0, 0, 0, 0, 0⟩], [], [], [], 1⟩ =
        (.ok ⟨1, 40, 37/20, pyInt (((40 : ℤ) : ℚ) * (37/20))⟩, db') ∧
      db'.bets = [] ++ [⟨1, 1, "m1".data, "home".data, 40, 37/20,
        pyInt (((40 : ℤ) : ℚ) * (37/20)), "pending".data, 0⟩] ∧
      db'.txs = [] ++ [⟨1, "bet".data, -40, 100, 100 - 40, natStr 1⟩] ∧
      db'.users.map (fun x => (x.balance, x.wager_remaining)) =
        ([⟨1, 100, 30, none, 0, 0, 0, 0, 0, 0, 0, 0, 0⟩] : List User).map
          (fun x => if x.user_id = 1 then (100 - 40, 30 - min 30 40)
            else (x.balance, x.wager_remaining)) ∧
      db'.preds = [] ∧
      (0 ≤ (37/20 : ℚ) →
        pyInt (((40 : ℤ) : ℚ) * (37/20)) = ⌊((40 : ℤ) : ℚ) * (37/20)⌋)) := by
  constructor
  · exact rm_C4_place_contract.2.1 1 "m1".data "home".data 40 1 false
      (some ⟨[("home".data, 37/20)], true⟩) none
      ⟨[⟨1, 100, 30, none, 0, 0, 0, 0, 0, 0, 0, 0, 0⟩], [], [], [], 1⟩
      ⟨1, 100, 30, none, 0, 0, 0, 0, 0, 0, 0, 0, 0⟩
      ⟨[("home".data, 37/20)], true⟩
      (by with_unfolding_all decide) (by with_unfolding_all decide)
      (by with_unfolding_all decide) (by with_unfolding_all decide) rfl
      (by with_unfolding_all decide) rfl
  · exact rm_C4_place_contract.2.2 1 "m1".data "home".data 40 1 false
      (some ⟨[("home".data, 37/20)], false⟩) none
      ⟨[⟨1, 100, 30, none, 0, 0, 0, 0, 0, 0, 0, 0, 0⟩], [], [], [], 1⟩
      ⟨1, 100, 30, none, 0, 0, 0, 0, 0, 0, 0, 0, 0⟩ (37/20)
      (by with_unfolding_all decide) (by with_unfolding_all decide)
      (by with_unfolding_all decide) (by with_unfolding_all decide) rfl
      (by with_unfolding_all decide) (by with_unfolding_all decide)
      (Or.inr rfl)

/-- **C4 (counterexample).** For a referred user's first-ever wager the
endpoint does not stop at one `-stake` ledger entry: the referral-bonus
path (src/api.py:3589-3593 and 6307-6358) additionally credits `+25` to the
bettor (and `+25` to the referrer), so the bettor ends with **two** ledger
entries and a net balance change of `-stake + 25` — contradicting "debits
exactly stake ... appends exactly one ledger entry". -/
theorem rm_C4_counterexample :
    ((place_bet_endpoint 1 "m1".data "home".data 40 1 false
        (some ⟨[("home".data, 37/20)], false⟩) none
        ⟨[⟨1, 100, 0, some 2, 0, 0, 0, 0, 0, 0, 0, 0, 0⟩,
          ⟨2, 50, 0, none, 0, 0, 0, 0, 0, 0, 0, 0, 0⟩], [], [], [], 1⟩).1 =
      .ok ⟨1, 40, 37/20, 74⟩) ∧
    balanceOf 1 (place_bet_endpoint 1 "m1".data "home".data 40 1 false
        (some ⟨[("home".data, 37/20)], false⟩) none
        ⟨[⟨1, 100, 0, some 2, 0, 0, 0, 0, 0, 0, 0, 0, 0⟩,
          ⟨2, 50, 0, none, 0, 0, 0, 0, 0, 0, 0, 0, 0⟩], [], [], [], 1⟩).2 = 85 ∧
    ((place_bet_endpoint 1 "m1".data "home".data 40 1 false
        (some ⟨[("home".data, 37/20)], false⟩) none
        ⟨[⟨1, 100, 0, some 2, 0, 0, 0, 0, 0, 0, 0, 0, 0⟩,
          ⟨2, 50, 0, none, 0, 0, 0, 0, 0, 0, 0, 0, 0⟩], [], [], [],
          1⟩).2.txs.filter (fun t => decide (t.user_id = 1))).length = 2 := by
  refine ⟨?_, ?_, ?_⟩
  · with_unfolding_all rfl
  · with_unfolding_all decide
  · with_unfolding_all decide

end RMBot
